import Mathlib

/-!
# FastChem condensed phase: `calculate.cpp`

A shallow embedding of `src/fastchem_src/condensed_phase/calculate.cpp`
(`CondensedPhase::calculate` and `CondensedPhase::correctValues`).

* The C++ code is a template over `double_type`, instantiated at `double` and
  `long double`; the embedding is generic in the number type `α` and in the
  functions `exp`, `log`, `log10` of `<cmath>`. A theorem is stated either for
  every number type, with the laws of arithmetic it uses as hypotheses, or at the
  real numbers with `Real.exp`, `Real.log`, `Real.logb 10`; at the real numbers
  rounding, underflow, overflow and values that are not numbers are not modelled.
* `std::vector` is a `List`; `v[i]` outside the vector is undefined behaviour
  in C++ and is the failure `none` here (`readAt`, `writeAt`).
* Pointers into the element and condensate catalogues are positions in the
  catalogue lists.
-/

namespace FastChem

/-! ## Records of `species_struct.h` (only the fields `calculate.cpp` uses) -/

/-- Record `Element<double_type>`: the fields read or written by `calculate.cpp`. -/
structure Element (α : Type) where
  index : Nat
  number_density : α
deriving Repr, DecidableEq

/-- Record `Condensate<double_type>`: the fields read by `calculate.cpp`. -/
structure Condensate (α : Type) where
  stoichiometric_vector : List α
  log_activity : α
deriving Repr, DecidableEq

/-! ## Vector accesses and counted loops -/

/-- Read `xs[i]`; out of range is `none`. -/
def readAt {β : Type} (xs : List β) (i : Nat) : Option β := xs[i]?

/-- Assignment `xs[i] = v`; out of range is `none`. -/
def writeAt {β : Type} (xs : List β) (i : Nat) (v : β) : Option (List β) :=
  if i < xs.length then some (xs.set i v) else none

/-- Loop `for (i = start; i < start + count; ++i) body`, the body may fail. -/
def forLoop {σ : Type} (body : Nat → σ → Option σ) : Nat → Nat → σ → Option σ
  | _, 0, s => some s
  | i, count + 1, s => (body i s).bind (forLoop body (i + 1) count)

section Code

variable {α : Type} [Add α] [Sub α] [Mul α] [Div α] [Neg α] [LT α]
  [DecidableRel (fun a b : α => a < b)] [OfNat α 0] [OfNat α 1] [OfScientific α]

/-- Lines 193-194 and 207-208 of `correctValues`:
`if (d > max_change) d = max_change; if (d < -max_change) d = -max_change;`. -/
def clampStep (max_change d : α) : α :=
  let d1 := if d > max_change then max_change else d
  if d1 < -max_change then -max_change else d1

/-- Output parameters of `correctValues` after the call. -/
structure CorrectedValues (α : Type) where
  activity_corr_new : List α
  cond_number_dens_new : List α
  elem_number_dens_new : List α
deriving Repr, DecidableEq

/-- Lines 172-173: `delta_n[condensates_jac[i]] = result[i]`. -/
def jacBody (result : List α) (condensates_jac : List Nat) (i : Nat) (delta_n : List α) :
    Option (List α) := do
  let k ← readAt condensates_jac i
  let r ← readAt result i
  writeAt delta_n k r

/-- Lines 182-183: `delta_n[index] += stoichiometric_vector[elements[j]->index] * result[j+nb_cond_jac]`. -/
def stoichBody (result : List α) (condensates : List (Condensate α))
    (elements : List (Element α)) (nb_cond_jac index : Nat) (j : Nat) (delta_n : List α) :
    Option (List α) := do
  let c ← readAt condensates index
  let e ← readAt elements j
  let s ← readAt c.stoichiometric_vector e.index
  let r ← readAt result (j + nb_cond_jac)
  let d ← readAt delta_n index
  writeAt delta_n index (d + s * r)

/-- Lines 178-188: the body of the loop over `condensates_rem`. -/
def remBody (log : α → α) (result : List α) (condensates : List (Condensate α))
    (condensates_rem : List Nat) (activity_corr_old cond_number_dens_old : List α)
    (elements : List (Element α)) (ln_tau : α) (nb_cond_jac : Nat)
    (i : Nat) (delta_n : List α) : Option (List α) := do
  let index ← readAt condensates_rem i
  let delta_n ← forLoop (stoichBody result condensates elements nb_cond_jac index)
    0 elements.length delta_n
  let d ← readAt delta_n index
  let a ← readAt activity_corr_old index
  let delta_n ← writeAt delta_n index (d / a)
  let d ← readAt delta_n index
  let c ← readAt condensates index
  let n ← readAt cond_number_dens_old index
  writeAt delta_n index (d + (c.log_activity / a + ln_tau - log a - log n + 1))

/-- State of the loop of lines 191-200: `delta_n` and the two output vectors. -/
structure CondLoop (α : Type) where
  delta_n : List α
  cond_number_dens_new : List α
  activity_corr_new : List α

/-- Lines 191-200: clamp `delta_n[i]`, update density and activity correction. -/
def condBody (exp log : α → α) (activity_corr_old cond_number_dens_old : List α)
    (ln_tau max_change : α) (i : Nat) (s : CondLoop α) : Option (CondLoop α) := do
  let d ← readAt s.delta_n i
  let delta_n ← writeAt s.delta_n i (if d > max_change then max_change else d)
  let d ← readAt delta_n i
  let delta_n ← writeAt delta_n i (if d < -max_change then -max_change else d)
  let n ← readAt cond_number_dens_old i
  let d ← readAt delta_n i
  let cond_number_dens_new ← writeAt s.cond_number_dens_new i (n * exp d)
  let a ← readAt activity_corr_old i
  let delta_lambda := ln_tau - log a - log n - d
  let activity_corr_new ← writeAt s.activity_corr_new i (a * exp delta_lambda)
  pure ⟨delta_n, cond_number_dens_new, activity_corr_new⟩

/-- Lines 203-211: clamped exponential update of one element density. -/
def elemBody (exp : α → α) (result : List α) (elem_number_dens_old : List α)
    (nb_cond_jac : Nat) (max_change : α) (i : Nat) (elem_number_dens_new : List α) :
    Option (List α) := do
  let delta_n ← readAt result (i + nb_cond_jac)
  let delta_n := if delta_n > max_change then max_change else delta_n
  let delta_n := if delta_n < -max_change then -max_change else delta_n
  let n ← readAt elem_number_dens_old i
  writeAt elem_number_dens_new i (n * exp delta_n)

/-- The vector `delta_n` of `correctValues` after lines 170-188. -/
def rawSteps (log : α → α) (result : List α) (condensates : List (Condensate α))
    (condensates_jac condensates_rem : List Nat)
    (activity_corr_old cond_number_dens_old : List α)
    (elements : List (Element α)) (ln_tau : α) : Option (List α) := do
  let delta_n : List α := List.replicate condensates.length 0
  let delta_n ← forLoop (jacBody result condensates_jac) 0 condensates_jac.length delta_n
  let nb_cond_jac := condensates_jac.length
  forLoop (remBody log result condensates condensates_rem activity_corr_old
    cond_number_dens_old elements ln_tau nb_cond_jac) 0 condensates_rem.length delta_n

/-- Function `CondensedPhase::correctValues` (lines 155-213). The three `_new` vectors are
in/out parameters; the result holds them after the call. -/
def correctValues (exp log : α → α)
    (result : List α) (condensates : List (Condensate α))
    (condensates_jac condensates_rem : List Nat)
    (activity_corr_old activity_corr_new : List α)
    (cond_number_dens_old cond_number_dens_new : List α)
    (elements : List (Element α))
    (elem_number_dens_old elem_number_dens_new : List α)
    (ln_tau max_change : α) : Option (CorrectedValues α) := do
  let delta_n ← rawSteps log result condensates condensates_jac condensates_rem
    activity_corr_old cond_number_dens_old elements ln_tau
  let nb_cond_jac := condensates_jac.length
  let s ← forLoop (condBody exp log activity_corr_old cond_number_dens_old ln_tau max_change)
    0 condensates.length ⟨delta_n, cond_number_dens_new, activity_corr_new⟩
  let elem_number_dens_new ← forLoop
    (elemBody exp result elem_number_dens_old nb_cond_jac max_change)
    0 elements.length elem_number_dens_new
  pure ⟨s.activity_corr_new, s.cond_number_dens_new, elem_number_dens_new⟩

/-- Term `j` of the sum of line 183,
`stoichiometric_vector[elements[j]->index] * result[j+nb_cond_jac]`, for in-range
accesses (an out-of-range access reads as `0` here). -/
def stoichTerm (result : List α) (c : Condensate α) (elements : List (Element α))
    (nb_cond_jac j : Nat) : α :=
  c.stoichiometric_vector.getD ((elements.map Element.index).getD j 0) 0 *
    result.getD (j + nb_cond_jac) 0

/-- The sum that the first `m` passes of the loop of lines 182-183 add to
`delta_n[index]`, in the order of the loop. -/
def stoichSum (result : List α) (c : Condensate α) (elements : List (Element α))
    (nb_cond_jac : Nat) : Nat → α
  | 0 => 0
  | m + 1 => stoichSum result c elements nb_cond_jac m +
      stoichTerm result c elements nb_cond_jac m

/-- Value of `delta_n[index]` after lines 182-187 when it was `x0` before, for a
condensate `c` with old activity correction `a` and old number density `n`. -/
def removedStep (log : α → α) (result : List α) (c : Condensate α)
    (elements : List (Element α)) (nb_cond_jac : Nat) (a n ln_tau x0 : α) : α :=
  (x0 + stoichSum result c elements nb_cond_jac elements.length) / a +
    (c.log_activity / a + ln_tau - log a - log n + 1)

/-- The index conditions under which `correctValues` is called: `result` holds an
entry for every Jacobian condensate and every element, the entries of
`condensates_jac` and `condensates_rem` are positions of `condensates`, the four
condensate vectors have one entry per condensate and the two element vectors one
entry per element, and `elements[j]->index` is a position of the stoichiometric
vector of every removed condensate. -/
def InRange (result : List α) (condensates : List (Condensate α))
    (condensates_jac condensates_rem : List Nat)
    (activity_corr_old activity_corr_new : List α)
    (cond_number_dens_old cond_number_dens_new : List α)
    (elements : List (Element α))
    (elem_number_dens_old elem_number_dens_new : List α) : Prop :=
  condensates_jac.length + elements.length ≤ result.length ∧
  (∀ k ∈ condensates_jac, k < condensates.length) ∧
  (∀ k ∈ condensates_rem, k < condensates.length) ∧
  activity_corr_old.length = condensates.length ∧
  activity_corr_new.length = condensates.length ∧
  cond_number_dens_old.length = condensates.length ∧
  cond_number_dens_new.length = condensates.length ∧
  elem_number_dens_old.length = elements.length ∧
  elem_number_dens_new.length = elements.length ∧
  (∀ k ∈ condensates_rem, ∀ c ∈ condensates[k]?, ∀ e ∈ elements,
    e.index < c.stoichiometric_vector.length)

instance (result : List α) (condensates : List (Condensate α))
    (condensates_jac condensates_rem : List Nat)
    (activity_corr_old activity_corr_new : List α)
    (cond_number_dens_old cond_number_dens_new : List α)
    (elements : List (Element α))
    (elem_number_dens_old elem_number_dens_new : List α) :
    Decidable (InRange result condensates condensates_jac condensates_rem
      activity_corr_old activity_corr_new cond_number_dens_old cond_number_dens_new
      elements elem_number_dens_old elem_number_dens_new) := by
  unfold InRange
  infer_instance

/-! ## `CondensedPhase::calculate` -/

/-- Collaborators of `calculate` that are declared outside `calculate.cpp`
(`condensed_phase.h`, `solver.h`, `species_struct.h`); they are parameters of the
embedding. `μ` is the type of a `Molecule` record and `mat` the type of the
Jacobian matrix. The vectors of pointers handed to the assemblers are given as the
records they point to. -/
structure Collaborators (α μ mat : Type) where
  selectActiveCondensates : List (Condensate α) → List (Element α) → List Nat × List Nat
  assembleJacobian : List (Condensate α) → List α → List α → List Nat → List Nat →
    List (Element α) → List μ → mat
  assembleRightHandSide : List (Condensate α) → List Nat → List Nat → List α → List α →
    List (Element α) → List μ → α → α → List α
  solveSystem : mat → List α → List α
  calcActivity : α → List (Element α) → Condensate α → Condensate α
  calcNumberDensity : List (Element α) → μ → μ

/-- Everything the loop of `calculate` reads and writes: the element and
condensate catalogues of the object, the `molecules` argument, the six local
vectors of lines 65-75, and `iterations`, a ghost counter of completed loop bodies
(it is not a variable of the source). -/
structure IterState (α μ : Type) where
  elements : List (Element α)
  condensates : List (Condensate α)
  molecules : List μ
  elem_densities_old : List α
  elem_densities_new : List α
  cond_densities_old : List α
  cond_densities_new : List α
  activity_corr_old : List α
  activity_corr_new : List α
  iterations : Nat

/-- How a call ends: the process is terminated by `exit(status)`, or the function
returns `value` with `nb_iterations` written to the output parameter. -/
inductive Outcome (σ : Type) where
  | exited (status : Int) (final : σ)
  | returned (value : Bool) (nb_iterations : Nat) (final : σ)

/-- The records a vector of pointers points to; a pointer is a position of the
catalogue, a position outside the catalogue is `none`. -/
def derefAll {β : Type} (catalogue : List β) : List Nat → Option (List β)
  | [] => some []
  | p :: ps => do
    let x ← readAt catalogue p
    let xs ← derefAll catalogue ps
    pure (x :: xs)

/-- Loop `for (i = start; i < start + count; ++i) jac.push_back(i)`. -/
def pushBackLoop : Nat → Nat → List Nat → List Nat
  | _, 0, jac => jac
  | i, count + 1, jac => pushBackLoop (i + 1) count (jac ++ [i])

/-- Lines 56-59: `condensates_jac` after the loop
`for (i = 0; i < size; ++i) condensates_jac.push_back(i)`. -/
def fillJac (size : Nat) : List Nat :=
  pushBackLoop 0 size []

/-- Lines 68-69: `elem_densities_old[i] = elements_cond[i]->number_density`. -/
def initElemBody (elements : List (Element α)) (elements_cond : List Nat) (i : Nat)
    (elem_densities_old : List α) : Option (List α) := do
  let p ← readAt elements_cond i
  let e ← readAt elements p
  writeAt elem_densities_old i e.number_density

/-- Lines 46-75 after the selector has returned `condensates_act` and
`elements_cond`: the state in which the loop is entered. -/
def initState {μ : Type} (elements : List (Element α)) (condensates : List (Condensate α))
    (molecules : List μ) (condensates_act elements_cond : List Nat) (tau : α) :
    Option (IterState α μ) := do
  let elem_densities_old : List α := List.replicate elements_cond.length 0.0
  let elem_densities_new : List α := List.replicate elements_cond.length 0.0
  let elem_densities_old ← forLoop (initElemBody elements elements_cond)
    0 elements_cond.length elem_densities_old
  let cond_densities_old : List α := List.replicate condensates_act.length tau
  let cond_densities_new : List α := List.replicate condensates_act.length 0.0
  let activity_corr_old : List α := List.replicate condensates_act.length 1.0
  let activity_corr_new : List α := List.replicate condensates_act.length 0.0
  pure ⟨elements, condensates, molecules, elem_densities_old, elem_densities_new,
    cond_densities_old, cond_densities_new, activity_corr_old, activity_corr_new, 0⟩

/-- Lines 125-126: `elements_cond[i]->number_density = elem_densities_new[i]`. -/
def writeBackBody (elements_cond : List Nat) (elem_densities_new : List α) (i : Nat)
    (elements : List (Element α)) : Option (List (Element α)) := do
  let p ← readAt elements_cond i
  let v ← readAt elem_densities_new i
  let e ← readAt elements p
  writeAt elements p { e with number_density := v }

/-- Line 128, one condensate: `i->calcActivity(temperature, elements)`. -/
def activityBody (calcActivity : α → List (Element α) → Condensate α → Condensate α)
    (temperature : α) (elements : List (Element α)) (condensates_act : List Nat) (i : Nat)
    (condensates : List (Condensate α)) : Option (List (Condensate α)) := do
  let p ← readAt condensates_act i
  let c ← readAt condensates p
  writeAt condensates p (calcActivity temperature elements c)

/-- Lines 80-137: one pass of the loop body of `calculate` (the printing of
lines 100-108 and 132-133 is left out). -/
def iteration {μ mat : Type} (K : Collaborators α μ mat) (exp log : α → α)
    (temperature total_element_density log_tau : α)
    (condensates_act elements_cond condensates_jac condensates_rem : List Nat)
    (_it : Nat) (s : IterState α μ) : Option (IterState α μ) := do
  let conds ← derefAll s.condensates condensates_act
  let elems ← derefAll s.elements elements_cond
  let jacobian := K.assembleJacobian conds s.activity_corr_old s.cond_densities_old
    condensates_jac condensates_rem elems s.molecules
  let rhs := K.assembleRightHandSide conds condensates_jac condensates_rem
    s.activity_corr_old s.cond_densities_old elems s.molecules total_element_density log_tau
  let result := K.solveSystem jacobian rhs
  let out ← correctValues exp log result conds condensates_jac condensates_rem
    s.activity_corr_old s.activity_corr_new s.cond_densities_old s.cond_densities_new
    elems s.elem_densities_old s.elem_densities_new log_tau 10.0
  let elements ← forLoop (writeBackBody elements_cond out.elem_number_dens_new)
    0 elements_cond.length s.elements
  let condensates ← forLoop (activityBody K.calcActivity temperature elements condensates_act)
    0 condensates_act.length s.condensates
  let molecules := s.molecules.map (K.calcNumberDensity elements)
  pure { elements := elements, condensates := condensates, molecules := molecules,
         elem_densities_old := out.elem_number_dens_new,
         elem_densities_new := out.elem_number_dens_new,
         cond_densities_old := out.cond_number_dens_new,
         cond_densities_new := out.cond_number_dens_new,
         activity_corr_old := out.activity_corr_new,
         activity_corr_new := out.activity_corr_new,
         iterations := s.iterations + 1 }

/-- Lines 46-138 with the bound `1000` of the loop replaced by `bound`: the state
after `bound` passes of the loop body. -/
def calculateUpTo {μ mat : Type} (K : Collaborators α μ mat) (exp log log10 : α → α)
    (temperature total_element_density : α)
    (elements : List (Element α)) (condensates : List (Condensate α))
    (molecules : List μ) (bound : Nat) : Option (IterState α μ) := do
  let tau : α := 1e-25
  let log_tau := log10 tau
  let (condensates_act, elements_cond) := K.selectActiveCondensates condensates elements
  let condensates_jac := fillJac condensates_act.length
  let condensates_rem : List Nat := []
  let s ← initState elements condensates molecules condensates_act elements_cond tau
  forLoop (iteration K exp log temperature total_element_density log_tau
    condensates_act elements_cond condensates_jac condensates_rem) 0 bound s

/-- Lines 46-138: the state after the loop `for (it = 0; it < 1000; ++it)`. -/
def calculateLoop {μ mat : Type} (K : Collaborators α μ mat) (exp log log10 : α → α)
    (temperature total_element_density : α)
    (elements : List (Element α)) (condensates : List (Condensate α))
    (molecules : List μ) : Option (IterState α μ) :=
  calculateUpTo K exp log log10 temperature total_element_density
    elements condensates molecules 1000

/-- Call `exit(status)`: the process ends, the statements after the call (`rest`)
are not executed. -/
def exit {σ : Type} (status : Int) (s : σ) (_rest : σ → Outcome σ) : Outcome σ :=
  Outcome.exited status s

/-- Lines 147-149, the statements behind `exit(0)`: `nb_iterations = 1; return true;`. -/
def afterExit {σ : Type} (s : σ) : Outcome σ :=
  Outcome.returned true 1 s

/-- Function `CondensedPhase::calculate` (lines 39-150); `none` is undefined behaviour (an
access outside a vector or through a pointer outside its catalogue). The
argument `density` is not used by the function. -/
def calculate {μ mat : Type} (K : Collaborators α μ mat) (exp log log10 : α → α)
    (temperature _density total_element_density : α)
    (elements : List (Element α)) (condensates : List (Condensate α))
    (molecules : List μ) : Option (Outcome (IterState α μ)) := do
  let s ← calculateLoop K exp log log10 temperature total_element_density
    elements condensates molecules
  pure (exit 0 s afterExit)

/-- The pointers returned by the selector point into the catalogues. -/
def ValidSelection {μ mat : Type} (K : Collaborators α μ mat)
    (elements : List (Element α)) (condensates : List (Condensate α)) : Prop :=
  (∀ p ∈ (K.selectActiveCondensates condensates elements).1, p < condensates.length) ∧
  (∀ p ∈ (K.selectActiveCondensates condensates elements).2, p < elements.length)

/-- Modelled from the spec: the contract of the assembler and the solver of
`solver.h` on dimensions (4.2, 4.3): the right-hand side has one entry per Jacobian
condensate and per element, and the solution has the dimension of the right-hand
side. -/
def Dimensioned {μ mat : Type} (K : Collaborators α μ mat) : Prop :=
  (∀ conds jac rem aco cdo elems mols ted log_tau,
    (K.assembleRightHandSide conds jac rem aco cdo elems mols ted log_tau).length =
      jac.length + elems.length) ∧
  (∀ J b, (K.solveSystem J b).length = b.length)

/-- Shape of a loop state of `calculate`: the catalogues have `nElem` and `nCond`
records and the six local vectors have one entry per selected element or
condensate. -/
def Shaped {μ : Type} (nElem nCond : Nat) (condensates_act elements_cond : List Nat)
    (s : IterState α μ) : Prop :=
  s.elements.length = nElem ∧ s.condensates.length = nCond ∧
  s.elem_densities_old.length = elements_cond.length ∧
  s.elem_densities_new.length = elements_cond.length ∧
  s.cond_densities_old.length = condensates_act.length ∧
  s.cond_densities_new.length = condensates_act.length ∧
  s.activity_corr_old.length = condensates_act.length ∧
  s.activity_corr_new.length = condensates_act.length

/-- Collaborators for concrete runs: the selector returns the given pointers, the
right-hand side is the zero vector of the dimension of the system, the solver
returns its right-hand side (so every raw step is zero), and the recomputations
leave condensates and molecules as they are. -/
def stubCollaborators (condensates_act elements_cond : List Nat) :
    Collaborators α Unit Unit where
  selectActiveCondensates := fun _ _ => (condensates_act, elements_cond)
  assembleJacobian := fun _ _ _ _ _ _ _ => ()
  assembleRightHandSide := fun _ jac _ _ _ elems _ _ _ =>
    List.replicate (jac.length + elems.length) 0
  solveSystem := fun _ b => b
  calcActivity := fun _ _ c => c
  calcNumberDensity := fun _ m => m

end Code

/-! ## Reasoning about accesses and loops -/

theorem readAt_eq_some {β : Type} {xs : List β} {i : Nat} {v : β} :
    readAt xs i = some v ↔ xs[i]? = some v := Iff.rfl

theorem readAt_of_lt {β : Type} (xs : List β) (i : Nat) (h : i < xs.length) :
    readAt xs i = some xs[i] := by
  simp [readAt, List.getElem?_eq_getElem h]

theorem writeAt_of_lt {β : Type} (xs : List β) (i : Nat) (v : β) (h : i < xs.length) :
    writeAt xs i v = some (xs.set i v) := by
  simp [writeAt, h]

theorem writeAt_eq_some {β : Type} {xs ys : List β} {i : Nat} {v : β} :
    writeAt xs i v = some ys ↔ i < xs.length ∧ ys = xs.set i v := by
  unfold writeAt
  split <;> simp_all [eq_comm]

/-- Total-correctness rule for `forLoop`: an invariant that every iteration
re-establishes without failing holds at the end, and the loop does not fail. -/
theorem forLoop_total {σ : Type} (Inv : Nat → σ → Prop) (body : Nat → σ → Option σ) :
    ∀ (count start : Nat) (s : σ), Inv start s →
      (∀ j t, start ≤ j → j < start + count → Inv j t →
        ∃ t', body j t = some t' ∧ Inv (j + 1) t') →
      ∃ s', forLoop body start count s = some s' ∧ Inv (start + count) s'
  | 0, start, s, h0, _ => ⟨s, rfl, by simpa using h0⟩
  | count + 1, start, s, h0, hstep => by
    obtain ⟨t, ht, hInv⟩ := hstep start s (Nat.le_refl _) (by omega) h0
    obtain ⟨s', hs', hEnd⟩ := forLoop_total Inv body count (start + 1) t hInv
      (fun j u h1 h2 hu => hstep j u (by omega) (by omega) hu)
    refine ⟨s', ?_, ?_⟩
    · simp [forLoop, ht, hs']
    · have : start + (count + 1) = start + 1 + count := by omega
      rw [this]; exact hEnd

/-- Lines 203-211 never fail on in-range vectors and write the clamped
exponential update at every position. -/
theorem elemLoop_spec {α : Type} [Mul α] [Neg α] [LT α]
    [DecidableRel (fun a b : α => a < b)] (exp : α → α) (result edo : List α) (nb : Nat) (M : α)
    (ne : Nat) (edn : List α) (hres : nb + ne ≤ result.length)
    (hedo : edo.length = ne) (hedn : edn.length = ne) :
    ∃ e, forLoop (elemBody exp result edo nb M) 0 ne edn = some e ∧ e.length = ne ∧
      ∀ j r x, result[j + nb]? = some r → edo[j]? = some x →
        e[j]? = some (x * exp (clampStep M r)) := by
  have h := forLoop_total
    (fun i (e : List α) => e.length = ne ∧ ∀ j r x, j < i → result[j + nb]? = some r →
      edo[j]? = some x → e[j]? = some (x * exp (clampStep M r)))
    (elemBody exp result edo nb M) ne 0 edn ⟨hedn, by intro j r x hj; omega⟩
    (by
      rintro j t _ hj ⟨hlen, hprev⟩
      have h1 : j + nb < result.length := by omega
      have h2 : j < edo.length := by omega
      have h3 : j < t.length := by omega
      refine ⟨t.set j (edo[j] * exp (clampStep M result[j + nb])), ?_, by simpa using hlen, ?_⟩
      · simp [elemBody, readAt_of_lt _ _ h1, readAt_of_lt _ _ h2, writeAt_of_lt _ _ _ h3,
          clampStep]
      · intro k r x hk hr hx
        by_cases hkj : k = j
        · subst hkj
          rw [List.getElem?_eq_getElem h1] at hr
          rw [List.getElem?_eq_getElem h2] at hx
          simp only [Option.some.injEq] at hr hx
          subst hr hx
          simp [List.getElem?_set, h3]
        · rw [List.getElem?_set_ne (Ne.symm hkj)]
          exact hprev k r x (by omega) hr hx)
  obtain ⟨e, he, hlen, hall⟩ := h
  refine ⟨e, he, hlen, fun j r x hr hx => hall j r x ?_ hr hx⟩
  have : j < edo.length := by
    by_contra hc
    rw [List.getElem?_eq_none (by omega)] at hx
    exact absurd hx (by simp)
  omega

/-- Lines 191-200 never fail on in-range vectors; position `i` of the two output
vectors receives the update computed from the clamped `delta_n[i]`. -/
theorem condLoop_spec {α : Type} [Sub α] [Mul α] [Neg α] [LT α]
    [DecidableRel (fun a b : α => a < b)] (exp log : α → α) (aco cdo : List α) (L M : α) (n : Nat)
    (delta cdn acn : List α) (hdelta : delta.length = n) (haco : aco.length = n)
    (hcdo : cdo.length = n) (hcdn : cdn.length = n) (hacn : acn.length = n) :
    ∃ s, forLoop (condBody exp log aco cdo L M) 0 n ⟨delta, cdn, acn⟩ = some s ∧
      s.cond_number_dens_new.length = n ∧ s.activity_corr_new.length = n ∧
      ∀ (j : Nat) d x a, delta[j]? = some d → cdo[j]? = some x → aco[j]? = some a →
        s.cond_number_dens_new[j]? = some (x * exp (clampStep M d)) ∧
        s.activity_corr_new[j]? = some (a * exp (L - log a - log x - clampStep M d)) := by
  have h := forLoop_total
    (fun i (s : CondLoop α) => s.delta_n.length = n ∧ s.cond_number_dens_new.length = n ∧
      s.activity_corr_new.length = n ∧ (∀ j : Nat, i ≤ j → s.delta_n[j]? = delta[j]?) ∧
      ∀ (j : Nat) d x a, j < i → delta[j]? = some d → cdo[j]? = some x → aco[j]? = some a →
        s.cond_number_dens_new[j]? = some (x * exp (clampStep M d)) ∧
        s.activity_corr_new[j]? = some (a * exp (L - log a - log x - clampStep M d)))
    (condBody exp log aco cdo L M) n 0 ⟨delta, cdn, acn⟩
    ⟨hdelta, hcdn, hacn, fun _ _ => rfl, by intro j d x a hj; omega⟩
    (by
      rintro j ⟨td, tc, ta⟩ _ hj ⟨hl1, hl2, hl3, hrest, hprev⟩
      simp only at hl1 hl2 hl3 hrest hprev
      have h1 : j < td.length := by omega
      have h2 : j < cdo.length := by omega
      have h3 : j < aco.length := by omega
      have h4 : j < tc.length := by omega
      have h5 : j < ta.length := by omega
      have h6 : j < delta.length := by omega
      have hd : td[j] = delta[j] := by
        have := hrest j (Nat.le_refl _)
        rw [List.getElem?_eq_getElem h1, List.getElem?_eq_getElem h6] at this
        simpa using this
      refine ⟨⟨(td.set j (if td[j] > M then M else td[j])).set j (clampStep M td[j]),
        tc.set j (cdo[j] * exp (clampStep M td[j])),
        ta.set j (aco[j] * exp (L - log aco[j] - log cdo[j] - clampStep M td[j]))⟩, ?_, ?_⟩
      · simp [condBody, readAt, writeAt, clampStep, h1, h2, h3, h4, h5,
          List.getElem?_eq_getElem]
      · refine ⟨by simpa using hl1, by simpa using hl2, by simpa using hl3, ?_, ?_⟩
        · intro k hk
          simp only
          rw [List.getElem?_set_ne (by omega), List.getElem?_set_ne (by omega)]
          exact hrest k (by omega)
        · intro k d x a hk hdk hxk hak
          simp only
          by_cases hkj : k = j
          · subst hkj
            rw [List.getElem?_eq_getElem h6] at hdk
            rw [List.getElem?_eq_getElem h2] at hxk
            rw [List.getElem?_eq_getElem h3] at hak
            simp only [Option.some.injEq] at hdk hxk hak
            subst hdk hxk hak
            simp [List.getElem?_set, h4, h5, hd]
          · rw [List.getElem?_set_ne (Ne.symm hkj), List.getElem?_set_ne (Ne.symm hkj)]
            exact hprev k d x a (by omega) hdk hxk hak)
  obtain ⟨s, hs, _, hl2, hl3, _, hall⟩ := h
  refine ⟨s, hs, hl2, hl3, fun j d x a hd hx ha => hall j d x a ?_ hd hx ha⟩
  have : j < delta.length := by
    by_contra hc
    rw [List.getElem?_eq_none (by omega)] at hd
    exact absurd hd (by simp)
  omega

theorem getD_of_getElem? {β : Type} {xs : List β} {i : Nat} {v d : β}
    (h : xs[i]? = some v) : xs.getD i d = v := by
  simp [List.getD, h]

/-- Lines 182-183: the inner loop adds the stoichiometric sum to `delta_n[index]`
and changes no other position. -/
theorem stoichLoop_spec (result : List ℝ) (condensates : List (Condensate ℝ))
    (elements : List (Element ℝ)) (nb index : Nat) (d0 : List ℝ) (c : Condensate ℝ) (x0 : ℝ)
    (hc : condensates[index]? = some c) (hx0 : d0[index]? = some x0)
    (hst : ∀ e ∈ elements, e.index < c.stoichiometric_vector.length)
    (hres : nb + elements.length ≤ result.length) :
    ∃ d, forLoop (stoichBody result condensates elements nb index) 0 elements.length d0 = some d ∧
      d.length = d0.length ∧ (∀ k : Nat, k ≠ index → d[k]? = d0[k]?) ∧
      d[index]? = some (x0 + stoichSum result c elements nb elements.length) := by
  have hidx : index < d0.length := by
    by_contra hcon
    rw [List.getElem?_eq_none (by omega)] at hx0
    exact absurd hx0 (by simp)
  have h := forLoop_total
    (fun i (d : List ℝ) => d.length = d0.length ∧ (∀ k : Nat, k ≠ index → d[k]? = d0[k]?) ∧
      d[index]? = some (x0 + stoichSum result c elements nb i))
    (stoichBody result condensates elements nb index) elements.length 0 d0
    ⟨rfl, fun _ _ => rfl, by simpa [stoichSum] using hx0⟩
    (by
      rintro j t _ hj ⟨hlen, hoth, hidxv⟩
      have h1 : j < elements.length := by omega
      have h2 : elements[j].index < c.stoichiometric_vector.length :=
        hst _ (List.getElem_mem h1)
      have h3 : j + nb < result.length := by omega
      have h4 : index < t.length := by omega
      refine ⟨t.set index ((x0 + stoichSum result c elements nb j) +
        c.stoichiometric_vector[elements[j].index] * result[j + nb]), ?_, by simpa using hlen,
        ?_, ?_⟩
      · simp [stoichBody, readAt, writeAt, hc, hidxv, h1, h2, h3, h4,
          List.getElem?_eq_getElem]
      · intro k hk
        rw [List.getElem?_set_ne (Ne.symm hk)]
        exact hoth k hk
      · rw [stoichSum, ← add_assoc]
        have e1 : stoichTerm result c elements nb j =
            c.stoichiometric_vector[elements[j].index] * result[j + nb] := by
          simp [stoichTerm, List.getD, h1, h2, h3, List.getElem?_eq_getElem]
        rw [e1]
        simp [List.getElem?_set, h4])
  simpa using h

theorem lt_length_of_getElem? {β : Type} {xs : List β} {i : Nat} {v : β}
    (h : xs[i]? = some v) : i < xs.length := by
  by_contra hcon
  rw [List.getElem?_eq_none (by omega)] at h
  exact absurd h (by simp)

/-- Lines 178-188, one pass of the loop over `condensates_rem`. -/
theorem remBody_spec (log : ℝ → ℝ) (result : List ℝ) (condensates : List (Condensate ℝ))
    (rem : List Nat) (aco cdo : List ℝ) (elements : List (Element ℝ)) (L : ℝ) (nb i : Nat)
    (d0 : List ℝ) (index : Nat) (c : Condensate ℝ) (x0 a n : ℝ)
    (hi : rem[i]? = some index)
    (hc : condensates[index]? = some c) (hx0 : d0[index]? = some x0)
    (ha : aco[index]? = some a) (hn : cdo[index]? = some n)
    (hst : ∀ e ∈ elements, e.index < c.stoichiometric_vector.length)
    (hres : nb + elements.length ≤ result.length) :
    ∃ d, remBody log result condensates rem aco cdo elements L nb i d0 = some d ∧
      d.length = d0.length ∧ (∀ k : Nat, k ≠ index → d[k]? = d0[k]?) ∧
      d[index]? = some (removedStep log result c elements nb a n L x0) := by
  obtain ⟨d1, hd1, hlen1, hoth1, hv1⟩ :=
    stoichLoop_spec result condensates elements nb index d0 c x0 hc hx0 hst hres
  have hidx : index < d1.length := lt_length_of_getElem? hv1
  refine ⟨(d1.set index ((x0 + stoichSum result c elements nb elements.length) / a)).set index
      (removedStep log result c elements nb a n L x0), ?_, by simpa using hlen1, ?_, ?_⟩
  · simp [remBody, readAt, writeAt, hi, hd1, hv1, ha, hc, hn, hidx, removedStep]
  · intro k hk
    rw [List.getElem?_set_ne (Ne.symm hk), List.getElem?_set_ne (Ne.symm hk)]
    exact hoth1 k hk
  · simp [List.getElem?_set, hidx]

/-- An entry that occurs exactly once in a list has exactly one position. -/
theorem unique_position_of_count {β : Type} [DecidableEq β] (r : β) :
    ∀ (l : List β), l.count r = 1 →
      ∃ i0 : Nat, l[i0]? = some r ∧ ∀ j : Nat, l[j]? = some r → j = i0
  | [], h => by simp at h
  | a :: l, h => by
    by_cases har : a = r
    · subst har
      have hnot : a ∉ l := by
        rw [← List.count_eq_zero]
        simpa using h
      refine ⟨0, by simp, ?_⟩
      intro j hj
      cases j with
      | zero => rfl
      | succ j =>
        simp only [List.getElem?_cons_succ] at hj
        exact absurd (List.getElem?_mem hj) hnot
    · have hcnt : l.count r = 1 := by
        rw [List.count_cons_of_ne (Ne.symm har)] at h
        exact h
      obtain ⟨i0, h0, huniq⟩ := unique_position_of_count r l hcnt
      refine ⟨i0 + 1, by simpa using h0, ?_⟩
      intro j hj
      cases j with
      | zero =>
        simp only [List.getElem?_cons_zero, Option.some.injEq] at hj
        exact absurd hj har
      | succ j =>
        simp only [List.getElem?_cons_succ] at hj
        rw [huniq j hj]

/-- Lines 172-173 never fail on in-range vectors. Positions outside
`condensates_jac` keep their value, a position written holds an entry of
`result`, and with distinct entries position `condensates_jac[i]` holds
`result[i]`. -/
theorem jacLoop_spec {α : Type} (result : List α) (jac : List Nat) (n : Nat) (d0 : List α)
    (hd0 : d0.length = n) (hjac : ∀ k ∈ jac, k < n) (hres : jac.length ≤ result.length) :
    ∃ d, forLoop (jacBody result jac) 0 jac.length d0 = some d ∧ d.length = n ∧
      (∀ k : Nat, k ∉ jac → d[k]? = d0[k]?) ∧
      (jac.Nodup → ∀ (i k : Nat), jac[i]? = some k → d[k]? = result[i]?) ∧
      (∀ (k : Nat) x, d[k]? = some x → d0[k]? = some x ∨ x ∈ result) := by
  have h := forLoop_total
    (fun i (d : List α) => d.length = n ∧
      (∀ k : Nat, (∀ j : Nat, j < i → jac[j]? ≠ some k) → d[k]? = d0[k]?) ∧
      (jac.Nodup → ∀ (j k : Nat), j < i → jac[j]? = some k → d[k]? = result[j]?) ∧
      (∀ (k : Nat) x, d[k]? = some x → d0[k]? = some x ∨ x ∈ result))
    (jacBody result jac) jac.length 0 d0
    ⟨hd0, fun _ _ => rfl, by intro _ j k hj; omega, fun _ _ hx => Or.inl hx⟩
    (by
      rintro i t _ hi ⟨hlen, hout, hnd, hfrom⟩
      have h1 : i < jac.length := by omega
      have h2 : i < result.length := by omega
      have h3 : jac[i] < t.length := by
        rw [hlen]; exact hjac _ (List.getElem_mem h1)
      refine ⟨t.set jac[i] result[i], ?_, by simpa using hlen, ?_, ?_, ?_⟩
      · simp [jacBody, readAt, writeAt, h1, h2, h3, List.getElem?_eq_getElem]
      · intro k hk
        have hne : jac[i] ≠ k := by
          intro he
          exact hk i (by omega) (by rw [List.getElem?_eq_getElem h1, he])
        rw [List.getElem?_set_ne hne]
        exact hout k (fun j hj => hk j (by omega))
      · intro hnodup j k hj hjk
        by_cases hji : j = i
        · subst hji
          rw [List.getElem?_eq_getElem h1] at hjk
          simp only [Option.some.injEq] at hjk
          subst hjk
          simp [List.getElem?_set, h3, List.getElem?_eq_getElem h2]
        · have hjl : j < jac.length := lt_length_of_getElem? hjk
          have hne : jac[i] ≠ k := by
            intro he
            rw [List.getElem?_eq_getElem hjl] at hjk
            simp only [Option.some.injEq] at hjk
            have := hnodup.getElem_inj_iff.1 (he.trans hjk.symm)
            exact hji this.symm
          rw [List.getElem?_set_ne hne]
          exact hnd hnodup j k (by omega) hjk
      · intro k x hx
        by_cases hk : jac[i] = k
        · subst hk
          simp only [List.getElem?_set, h3, if_true, Option.some.injEq] at hx
          right; rw [← hx]; exact List.getElem_mem h2
        · rw [List.getElem?_set_ne hk] at hx
          exact hfrom k x hx)
  obtain ⟨d, hd, hlen, hout, hnd, hfrom⟩ := h
  refine ⟨d, hd, hlen, ?_, ?_, hfrom⟩
  · intro k hk
    exact hout k (fun j _ hj => hk (List.getElem?_mem hj))
  · intro hnodup i k hik
    exact hnd hnodup i k (by simpa using lt_length_of_getElem? hik) hik

/-- Lines 178-188 never fail on in-range vectors. Positions outside
`condensates_rem` keep their value; a position that occurs at exactly one place of
`condensates_rem` holds the analytic step computed from its previous value. -/
theorem remLoop_spec (log : ℝ → ℝ) (result : List ℝ) (condensates : List (Condensate ℝ))
    (rem : List Nat) (aco cdo : List ℝ) (elements : List (Element ℝ)) (L : ℝ) (nb : Nat)
    (d0 : List ℝ) (hd0 : d0.length = condensates.length)
    (hrem : ∀ k ∈ rem, k < condensates.length)
    (haco : aco.length = condensates.length) (hcdo : cdo.length = condensates.length)
    (hst : ∀ k ∈ rem, ∀ c ∈ condensates[k]?, ∀ e ∈ elements,
      e.index < c.stoichiometric_vector.length)
    (hres : nb + elements.length ≤ result.length) :
    ∃ d, forLoop (remBody log result condensates rem aco cdo elements L nb) 0 rem.length d0
        = some d ∧ d.length = condensates.length ∧
      (∀ k : Nat, k ∉ rem → d[k]? = d0[k]?) ∧
      (∀ (r i0 : Nat) c x0 a n, rem[i0]? = some r → (∀ j : Nat, rem[j]? = some r → j = i0) →
        condensates[r]? = some c → d0[r]? = some x0 → aco[r]? = some a → cdo[r]? = some n →
        d[r]? = some (removedStep log result c elements nb a n L x0)) := by
  have h := forLoop_total
    (fun i (d : List ℝ) => d.length = condensates.length ∧
      (∀ k : Nat, (∀ j : Nat, j < i → rem[j]? ≠ some k) → d[k]? = d0[k]?) ∧
      (∀ (r i0 : Nat) c x0 a n, i0 < i → rem[i0]? = some r →
        (∀ j : Nat, rem[j]? = some r → j = i0) →
        condensates[r]? = some c → d0[r]? = some x0 → aco[r]? = some a → cdo[r]? = some n →
        d[r]? = some (removedStep log result c elements nb a n L x0)))
    (remBody log result condensates rem aco cdo elements L nb) rem.length 0 d0
    ⟨hd0, fun _ _ => rfl, by intro r i0 c x0 a n hi; omega⟩
    (by
      rintro i t _ hi ⟨hlen, hout, hdone⟩
      have h1 : i < rem.length := by omega
      have hri : rem[i]? = some rem[i] := List.getElem?_eq_getElem h1
      have h2 : rem[i] < condensates.length := hrem _ (List.getElem_mem h1)
      have hc : condensates[rem[i]]? = some condensates[rem[i]] := List.getElem?_eq_getElem h2
      have h3 : rem[i] < t.length := by omega
      have h4 : rem[i] < aco.length := by omega
      have h5 : rem[i] < cdo.length := by omega
      obtain ⟨d, hd, hdlen, hdoth, hdv⟩ := remBody_spec log result condensates rem aco cdo
        elements L nb i t rem[i] condensates[rem[i]] t[rem[i]] aco[rem[i]] cdo[rem[i]]
        hri hc (List.getElem?_eq_getElem h3) (List.getElem?_eq_getElem h4)
        (List.getElem?_eq_getElem h5)
        (hst _ (List.getElem_mem h1) _ hc) hres
      refine ⟨d, hd, by omega, ?_, ?_⟩
      · intro k hk
        have hne : k ≠ rem[i] := by
          intro he
          exact hk i (by omega) (by rw [hri, he])
        rw [hdoth k hne]
        exact hout k (fun j hj => hk j (by omega))
      · intro r i0 c x0 a n hi0 hr huniq hcr hx0 ha hn
        by_cases hii : i0 = i
        · subst hii
          rw [hri] at hr
          simp only [Option.some.injEq] at hr
          subst hr
          have hprev : t[rem[i0]]? = d0[rem[i0]]? :=
            hout _ (fun j hj hjr => by have := huniq j hjr; omega)
          rw [hc] at hcr
          rw [List.getElem?_eq_getElem h4] at ha
          rw [List.getElem?_eq_getElem h5] at hn
          rw [← hprev, List.getElem?_eq_getElem h3] at hx0
          simp only [Option.some.injEq] at hcr ha hn hx0
          subst hcr ha hn hx0
          exact hdv
        · have hne : r ≠ rem[i] := by
            intro he
            have := huniq i (by rw [hri, he])
            exact hii this.symm
          rw [hdoth r hne]
          exact hdone r i0 c x0 a n (by omega) hr huniq hcr hx0 ha hn)
  obtain ⟨d, hd, hlen, hout, hdone⟩ := h
  refine ⟨d, hd, hlen, ?_, ?_⟩
  · intro k hk
    exact hout k (fun j _ hj => hk (List.getElem?_mem hj))
  · intro r i0 c x0 a n hr huniq hcr hx0 ha hn
    exact hdone r i0 c x0 a n (by simpa using lt_length_of_getElem? hr) hr huniq hcr hx0 ha hn

/-- Lines 170-188 on in-range vectors: `delta_n` is produced without failure, has
one entry per condensate, and its entries are the raw steps. -/
theorem rawSteps_spec (log : ℝ → ℝ) (result : List ℝ) (condensates : List (Condensate ℝ))
    (jac rem : List Nat) (aco acn cdo cdn : List ℝ) (elements : List (Element ℝ))
    (edo edn : List ℝ) (L : ℝ)
    (hrange : InRange result condensates jac rem aco acn cdo cdn elements edo edn) :
    ∃ delta, rawSteps log result condensates jac rem aco cdo elements L = some delta ∧
      delta.length = condensates.length ∧
      (jac.Nodup → ∀ (i k : Nat), jac[i]? = some k → k ∉ rem → delta[k]? = result[i]?) ∧
      (∀ k : Nat, k < condensates.length → k ∉ jac → k ∉ rem → delta[k]? = some 0) ∧
      (∀ (r : Nat) c a n, rem.count r = 1 → r ∉ jac → condensates[r]? = some c →
        aco[r]? = some a → cdo[r]? = some n →
        delta[r]? = some (removedStep log result c elements jac.length a n L 0)) ∧
      (rem = [] → ∀ (k : Nat) x, delta[k]? = some x → x = 0 ∨ x ∈ result) := by
  obtain ⟨hres, hjac, hrem, haco, _, hcdo, _, _, _, hst⟩ := hrange
  obtain ⟨d1, hd1, hlen1, hout1, hnd1, hfrom1⟩ := jacLoop_spec result jac condensates.length
    (List.replicate condensates.length 0) (by simp) hjac (by omega)
  obtain ⟨d2, hd2, hlen2, hout2, hdone2⟩ := remLoop_spec log result condensates rem aco cdo
    elements L jac.length d1 hlen1 hrem haco hcdo hst hres
  have hzero : ∀ k : Nat, k < condensates.length →
      (List.replicate condensates.length (0 : ℝ))[k]? = some 0 := by
    intro k hk
    simp [List.getElem?_replicate, hk]
  refine ⟨d2, ?_, hlen2, ?_, ?_, ?_, ?_⟩
  · simp [rawSteps, hd1, hd2]
  · intro hnodup i k hik hk
    rw [hout2 k hk]
    exact hnd1 hnodup i k hik
  · intro k hk hkj hkr
    rw [hout2 k hkr, hout1 k hkj]
    exact hzero k hk
  · intro r c a n hcount hrj hc ha hn
    obtain ⟨i0, hi0, huniq⟩ := unique_position_of_count r rem hcount
    have hr : r < condensates.length := hrem r (List.getElem?_mem hi0)
    exact hdone2 r i0 c 0 a n hi0 huniq hc (by rw [hout1 r hrj]; exact hzero r hr) ha hn
  · intro hempty k x hx
    subst hempty
    rw [hout2 k (by simp)] at hx
    rcases hfrom1 k x hx with h | h
    · left
      have hk : k < condensates.length := by
        simpa using lt_length_of_getElem? h
      rw [hzero k hk] at h
      simpa using h.symm
    · exact Or.inr h

/-- On in-range vectors `correctValues` does not fail; every output vector keeps
its length, position `i` of the condensate outputs is computed from the clamped
raw step `delta_n[i]` and position `j` of the element output from the clamped
`result[j + nb_cond_jac]`. -/
theorem correctValues_spec (result : List ℝ) (condensates : List (Condensate ℝ))
    (jac rem : List Nat) (aco acn cdo cdn : List ℝ) (elements : List (Element ℝ))
    (edo edn : List ℝ) (L M : ℝ)
    (hrange : InRange result condensates jac rem aco acn cdo cdn elements edo edn) :
    ∃ delta out,
      rawSteps Real.log result condensates jac rem aco cdo elements L = some delta ∧
      delta.length = condensates.length ∧
      correctValues Real.exp Real.log result condensates jac rem aco acn cdo cdn
        elements edo edn L M = some out ∧
      out.cond_number_dens_new.length = condensates.length ∧
      out.activity_corr_new.length = condensates.length ∧
      out.elem_number_dens_new.length = elements.length ∧
      (∀ (i : Nat) d x a, delta[i]? = some d → cdo[i]? = some x → aco[i]? = some a →
        out.cond_number_dens_new[i]? = some (x * Real.exp (clampStep M d)) ∧
        out.activity_corr_new[i]? =
          some (a * Real.exp (L - Real.log a - Real.log x - clampStep M d))) ∧
      (∀ (j : Nat) r x, result[j + jac.length]? = some r → edo[j]? = some x →
        out.elem_number_dens_new[j]? = some (x * Real.exp (clampStep M r))) := by
  obtain ⟨delta, hdelta, hlen, _⟩ := rawSteps_spec Real.log result condensates jac rem
    aco acn cdo cdn elements edo edn L hrange
  obtain ⟨hres, _, _, haco, hacn, hcdo, hcdn, hedo, hedn, _⟩ := hrange
  obtain ⟨s, hs, hsl1, hsl2, hsv⟩ := condLoop_spec Real.exp Real.log aco cdo L M
    condensates.length delta cdn acn hlen haco hcdo hcdn hacn
  obtain ⟨e, he, hel, hev⟩ := elemLoop_spec Real.exp result edo jac.length M
    elements.length edn (by omega) hedo hedn
  refine ⟨delta, ⟨s.activity_corr_new, s.cond_number_dens_new, e⟩, hdelta, hlen, ?_,
    hsl1, hsl2, hel, hsv, hev⟩
  simp [correctValues, hdelta, hs, he]

theorem clampStep_mem (M d : ℝ) (hM : 0 ≤ M) : -M ≤ clampStep M d ∧ clampStep M d ≤ M := by
  unfold clampStep
  simp only [gt_iff_lt]
  split_ifs <;> constructor <;> linarith

theorem clampStep_eq_clamp (M d : ℝ) (hM : 0 ≤ M) : clampStep M d = max (-M) (min d M) := by
  unfold clampStep
  simp only [gt_iff_lt]
  split_ifs with h1 h2 h2
  · linarith
  · rw [min_eq_right (le_of_lt h1), max_eq_right (by linarith)]
  · rw [min_eq_left (by linarith), max_eq_left (le_of_lt h2)]
  · rw [min_eq_left (by linarith), max_eq_right (by linarith)]

theorem getElem?_of_mem_of_length {β : Type} {xs : List β} {x : β} (h : x ∈ xs) :
    ∃ i : Nat, i < xs.length ∧ xs[i]? = some x := by
  obtain ⟨i, hi⟩ := List.getElem?_of_mem h
  exact ⟨i, lt_length_of_getElem? hi, hi⟩

/-- In exact real arithmetic, on in-range vectors with positive old values
`correctValues` does not fail and every new entry is positive (by `0 < exp x`; in
`double` a product `old * exp d` can underflow to `0`). -/
theorem correctValues_pos (result : List ℝ) (condensates : List (Condensate ℝ))
    (condensates_jac condensates_rem : List Nat)
    (activity_corr_old activity_corr_new cond_number_dens_old cond_number_dens_new : List ℝ)
    (elements : List (Element ℝ)) (elem_number_dens_old elem_number_dens_new : List ℝ)
    (ln_tau max_change : ℝ)
    (hrange : InRange result condensates condensates_jac condensates_rem activity_corr_old
      activity_corr_new cond_number_dens_old cond_number_dens_new elements
      elem_number_dens_old elem_number_dens_new)
    (hcond : ∀ x ∈ cond_number_dens_old, 0 < x)
    (hact : ∀ x ∈ activity_corr_old, 0 < x)
    (helem : ∀ x ∈ elem_number_dens_old, 0 < x) :
    ∃ out, correctValues Real.exp Real.log result condensates condensates_jac condensates_rem
        activity_corr_old activity_corr_new cond_number_dens_old cond_number_dens_new
        elements elem_number_dens_old elem_number_dens_new ln_tau max_change = some out ∧
      (∀ x ∈ out.cond_number_dens_new, 0 < x) ∧
      (∀ x ∈ out.activity_corr_new, 0 < x) ∧
      (∀ x ∈ out.elem_number_dens_new, 0 < x) := by
  obtain ⟨delta, out, _, hlen, hout, hl1, hl2, hl3, hcv, hev⟩ :=
    correctValues_spec result condensates condensates_jac condensates_rem activity_corr_old
      activity_corr_new cond_number_dens_old cond_number_dens_new elements
      elem_number_dens_old elem_number_dens_new ln_tau max_change hrange
  obtain ⟨hres, _, _, haco, _, hcdo, _, hedo, _, _⟩ := hrange
  have hpair : ∀ i : Nat, i < condensates.length →
      (∀ x, out.cond_number_dens_new[i]? = some x → 0 < x) ∧
      (∀ x, out.activity_corr_new[i]? = some x → 0 < x) := by
    intro i hi
    have h1 : i < delta.length := by omega
    have h2 : i < cond_number_dens_old.length := by omega
    have h3 : i < activity_corr_old.length := by omega
    obtain ⟨hc, ha⟩ := hcv i delta[i] cond_number_dens_old[i] activity_corr_old[i]
      (List.getElem?_eq_getElem h1) (List.getElem?_eq_getElem h2) (List.getElem?_eq_getElem h3)
    constructor
    · intro x hx
      rw [hc] at hx
      simp only [Option.some.injEq] at hx
      rw [← hx]
      exact mul_pos (hcond _ (List.getElem_mem h2)) (Real.exp_pos _)
    · intro x hx
      rw [ha] at hx
      simp only [Option.some.injEq] at hx
      rw [← hx]
      exact mul_pos (hact _ (List.getElem_mem h3)) (Real.exp_pos _)
  refine ⟨out, hout, ?_, ?_, ?_⟩
  · intro x hx
    obtain ⟨i, hi, hix⟩ := getElem?_of_mem_of_length hx
    exact (hpair i (by omega)).1 x hix
  · intro x hx
    obtain ⟨i, hi, hix⟩ := getElem?_of_mem_of_length hx
    exact (hpair i (by omega)).2 x hix
  · intro x hx
    obtain ⟨j, hj, hjx⟩ := getElem?_of_mem_of_length hx
    have h1 : j + condensates_jac.length < result.length := by omega
    have h2 : j < elem_number_dens_old.length := by omega
    rw [hev j result[j + condensates_jac.length] elem_number_dens_old[j]
      (List.getElem?_eq_getElem h1) (List.getElem?_eq_getElem h2)] at hjx
    simp only [Option.some.injEq] at hjx
    rw [← hjx]
    exact mul_pos (helem _ (List.getElem_mem h2)) (Real.exp_pos _)

/-! ## Reasoning about `calculate` -/

theorem pushBackLoop_eq : ∀ (count i : Nat) (jac : List Nat),
    pushBackLoop i count jac = jac ++ List.range' i count
  | 0, i, jac => by simp [pushBackLoop]
  | count + 1, i, jac => by
    rw [pushBackLoop, pushBackLoop_eq count (i + 1) (jac ++ [i])]
    simp [List.range'_succ]

/-- Lines 56-59 leave `condensates_jac = [0, 1, ..., size - 1]`. -/
theorem fillJac_eq (size : Nat) : fillJac size = List.range size := by
  rw [fillJac, pushBackLoop_eq, List.range_eq_range']
  simp

/-- Dereferencing pointers that point into the catalogue does not fail and yields
the records pointed to, in order. -/
theorem derefAll_spec {β : Type} (catalogue : List β) :
    ∀ ps : List Nat, (∀ p ∈ ps, p < catalogue.length) →
      ∃ xs, derefAll catalogue ps = some xs ∧ xs.length = ps.length ∧
        ∀ (i p : Nat), ps[i]? = some p → xs[i]? = catalogue[p]?
  | [], _ => ⟨[], rfl, rfl, by simp⟩
  | q :: ps, h => by
    have hq : q < catalogue.length := h q (by simp)
    obtain ⟨xs, hxs, hlen, hval⟩ := derefAll_spec catalogue ps
      (fun p hp => h p (by simp [hp]))
    refine ⟨catalogue[q] :: xs, ?_, by simp [hlen], ?_⟩
    · simp [derefAll, readAt, hxs, List.getElem?_eq_getElem hq]
    · intro i p hip
      cases i with
      | zero =>
        simp only [List.getElem?_cons_zero, Option.some.injEq] at hip
        subst hip
        simp [List.getElem?_eq_getElem hq]
      | succ i =>
        simp only [List.getElem?_cons_succ] at hip ⊢
        exact hval i p hip

/-- Lines 65-75 with valid element pointers: the loop is entered with every
condensate density `tau`, every activity correction `1.0` and the element densities
read from the element records. -/
theorem initState_spec {μ : Type} (elements : List (Element ℝ))
    (condensates : List (Condensate ℝ)) (molecules : List μ)
    (condensates_act elements_cond : List Nat) (tau : ℝ)
    (hvalid : ∀ p ∈ elements_cond, p < elements.length) :
    ∃ s : IterState ℝ μ,
      initState elements condensates molecules condensates_act elements_cond tau = some s ∧
      s.elements = elements ∧ s.condensates = condensates ∧ s.molecules = molecules ∧
      s.iterations = 0 ∧
      s.cond_densities_old = List.replicate condensates_act.length tau ∧
      s.activity_corr_old = List.replicate condensates_act.length 1 ∧
      s.cond_densities_new.length = condensates_act.length ∧
      s.activity_corr_new.length = condensates_act.length ∧
      s.elem_densities_new.length = elements_cond.length ∧
      s.elem_densities_old.length = elements_cond.length ∧
      ∀ (i p : Nat) e, elements_cond[i]? = some p → elements[p]? = some e →
        s.elem_densities_old[i]? = some e.number_density := by
  have h := forLoop_total
    (fun i (d : List ℝ) => d.length = elements_cond.length ∧
      ∀ (j p : Nat) e, j < i → elements_cond[j]? = some p → elements[p]? = some e →
        d[j]? = some e.number_density)
    (initElemBody elements elements_cond) elements_cond.length 0
    (List.replicate elements_cond.length 0.0) ⟨by simp, by intro j p e hj; omega⟩
    (by
      rintro i t _ hi ⟨hlen, hprev⟩
      have h1 : i < elements_cond.length := by omega
      have h2 : elements_cond[i] < elements.length := hvalid _ (List.getElem_mem h1)
      have h3 : i < t.length := by omega
      refine ⟨t.set i elements[elements_cond[i]].number_density, ?_, by simpa using hlen, ?_⟩
      · simp [initElemBody, readAt, writeAt, h1, h2, h3, List.getElem?_eq_getElem]
      · intro j p e hj hjp hpe
        by_cases hji : j = i
        · subst hji
          rw [List.getElem?_eq_getElem h1] at hjp
          simp only [Option.some.injEq] at hjp
          subst hjp
          rw [List.getElem?_eq_getElem h2] at hpe
          simp only [Option.some.injEq] at hpe
          subst hpe
          simp [List.getElem?_set, h3]
        · rw [List.getElem?_set_ne (Ne.symm hji)]
          exact hprev j p e (by omega) hjp hpe)
  obtain ⟨d, hd, hlen, hval⟩ := h
  refine ⟨_, by simp only [initState, hd]; rfl, rfl, rfl, rfl, rfl, rfl, ?_, by simp,
    by simp, by simp, hlen, ?_⟩
  · norm_num
  · intro i p e hip hpe
    exact hval i p e (by simpa using lt_length_of_getElem? hip) hip hpe

/-- Lines 125-126 with valid pointers and one new density per selected element do
not fail and keep the number of element records. -/
theorem writeBack_total (elements_cond : List Nat) (edn : List ℝ)
    (elements : List (Element ℝ)) (hvalid : ∀ p ∈ elements_cond, p < elements.length)
    (hedn : edn.length = elements_cond.length) :
    ∃ es, forLoop (writeBackBody elements_cond edn) 0 elements_cond.length elements = some es ∧
      es.length = elements.length := by
  have h := forLoop_total (fun _ (es : List (Element ℝ)) => es.length = elements.length)
    (writeBackBody elements_cond edn) elements_cond.length 0 elements rfl
    (by
      rintro i t _ hi hlen
      have h1 : i < elements_cond.length := by omega
      have h2 : i < edn.length := by omega
      have h3 : elements_cond[i] < t.length := by
        rw [hlen]; exact hvalid _ (List.getElem_mem h1)
      refine ⟨t.set elements_cond[i] { t[elements_cond[i]] with number_density := edn[i] },
        ?_, by simpa using hlen⟩
      simp [writeBackBody, readAt, writeAt, h1, h2, h3, List.getElem?_eq_getElem])
  exact h

/-- Line 128 with valid pointers does not fail and keeps the number of condensate
records. -/
theorem activity_total (calcActivity : ℝ → List (Element ℝ) → Condensate ℝ → Condensate ℝ)
    (temperature : ℝ) (elements : List (Element ℝ)) (condensates_act : List Nat)
    (condensates : List (Condensate ℝ))
    (hvalid : ∀ p ∈ condensates_act, p < condensates.length) :
    ∃ cs, forLoop (activityBody calcActivity temperature elements condensates_act) 0
        condensates_act.length condensates = some cs ∧ cs.length = condensates.length := by
  have h := forLoop_total (fun _ (cs : List (Condensate ℝ)) => cs.length = condensates.length)
    (activityBody calcActivity temperature elements condensates_act) condensates_act.length 0
    condensates rfl
    (by
      rintro i t _ hi hlen
      have h1 : i < condensates_act.length := by omega
      have h3 : condensates_act[i] < t.length := by
        rw [hlen]; exact hvalid _ (List.getElem_mem h1)
      refine ⟨t.set condensates_act[i]
        (calcActivity temperature elements t[condensates_act[i]]), ?_, by simpa using hlen⟩
      simp [activityBody, readAt, writeAt, h1, h3, List.getElem?_eq_getElem])
  exact h

/-- One pass of the loop body of `calculate` on a well-shaped state: no access
fails, the state stays well-shaped, one more pass is counted, and the new state
holds the output of `correctValues` called with the old vectors of the state, the
identity partition and the constant `log_tau`. -/
theorem iteration_spec {μ mat : Type} (K : Collaborators ℝ μ mat)
    (temperature total_element_density log_tau : ℝ)
    (condensates_act elements_cond : List Nat) (nElem nCond it : Nat) (s : IterState ℝ μ)
    (hdim : Dimensioned K)
    (hact : ∀ p ∈ condensates_act, p < nCond) (helem : ∀ p ∈ elements_cond, p < nElem)
    (hs : Shaped nElem nCond condensates_act elements_cond s) :
    ∃ s' conds elems out,
      derefAll s.condensates condensates_act = some conds ∧
      derefAll s.elements elements_cond = some elems ∧
      correctValues Real.exp Real.log
        (K.solveSystem
          (K.assembleJacobian conds s.activity_corr_old s.cond_densities_old
            (fillJac condensates_act.length) [] elems s.molecules)
          (K.assembleRightHandSide conds (fillJac condensates_act.length) []
            s.activity_corr_old s.cond_densities_old elems s.molecules
            total_element_density log_tau))
        conds (fillJac condensates_act.length) []
        s.activity_corr_old s.activity_corr_new s.cond_densities_old s.cond_densities_new
        elems s.elem_densities_old s.elem_densities_new log_tau 10.0 = some out ∧
      InRange
        (K.solveSystem
          (K.assembleJacobian conds s.activity_corr_old s.cond_densities_old
            (fillJac condensates_act.length) [] elems s.molecules)
          (K.assembleRightHandSide conds (fillJac condensates_act.length) []
            s.activity_corr_old s.cond_densities_old elems s.molecules
            total_element_density log_tau))
        conds (fillJac condensates_act.length) []
        s.activity_corr_old s.activity_corr_new s.cond_densities_old s.cond_densities_new
        elems s.elem_densities_old s.elem_densities_new ∧
      iteration K Real.exp Real.log temperature total_element_density log_tau
        condensates_act elements_cond (fillJac condensates_act.length) [] it s = some s' ∧
      Shaped nElem nCond condensates_act elements_cond s' ∧
      s'.iterations = s.iterations + 1 ∧
      s'.cond_densities_old = out.cond_number_dens_new ∧
      s'.cond_densities_new = out.cond_number_dens_new ∧
      s'.activity_corr_old = out.activity_corr_new ∧
      s'.activity_corr_new = out.activity_corr_new ∧
      s'.elem_densities_old = out.elem_number_dens_new ∧
      s'.elem_densities_new = out.elem_number_dens_new := by
  obtain ⟨hE, hC, hedo, hedn, hcdo, hcdn, haco, hacn⟩ := hs
  obtain ⟨conds, hconds, hclen, _⟩ := derefAll_spec s.condensates condensates_act
    (fun p hp => by rw [hC]; exact hact p hp)
  obtain ⟨elems, helems, helen, _⟩ := derefAll_spec s.elements elements_cond
    (fun p hp => by rw [hE]; exact helem p hp)
  have hrange : InRange
      (K.solveSystem
        (K.assembleJacobian conds s.activity_corr_old s.cond_densities_old
          (fillJac condensates_act.length) [] elems s.molecules)
        (K.assembleRightHandSide conds (fillJac condensates_act.length) []
          s.activity_corr_old s.cond_densities_old elems s.molecules
          total_element_density log_tau))
      conds (fillJac condensates_act.length) []
      s.activity_corr_old s.activity_corr_new s.cond_densities_old s.cond_densities_new
      elems s.elem_densities_old s.elem_densities_new := by
    refine ⟨?_, ?_, by simp, by omega, by omega, by omega, by omega, by omega, by omega,
      by simp⟩
    · rw [hdim.2, hdim.1]
    · intro k hk
      rw [fillJac_eq, List.mem_range] at hk
      omega
  obtain ⟨_, out, _, _, hout, hl1, hl2, hl3, _, _⟩ := correctValues_spec _ _ _ _ _ _ _ _ _ _ _
    log_tau 10.0 hrange
  obtain ⟨es, hes, heslen⟩ := writeBack_total elements_cond out.elem_number_dens_new
    s.elements (fun p hp => by rw [hE]; exact helem p hp) (by omega)
  obtain ⟨cs, hcs, hcslen⟩ := activity_total K.calcActivity temperature es condensates_act
    s.condensates (fun p hp => by rw [hC]; exact hact p hp)
  refine ⟨{ elements := es, condensates := cs,
             molecules := s.molecules.map (K.calcNumberDensity es),
             elem_densities_old := out.elem_number_dens_new,
             elem_densities_new := out.elem_number_dens_new,
             cond_densities_old := out.cond_number_dens_new,
             cond_densities_new := out.cond_number_dens_new,
             activity_corr_old := out.activity_corr_new,
             activity_corr_new := out.activity_corr_new,
             iterations := s.iterations + 1 },
    conds, elems, out, hconds, helems, hout, hrange, ?_, ?_, rfl, rfl, rfl, rfl,
    rfl, rfl, rfl⟩
  · simp only [iteration, hconds, helems, Option.bind_eq_bind, Option.some_bind, hout, hes,
      hcs, Option.pure_def]
  · exact ⟨by simpa [heslen] using hE, by simpa [hcslen] using hC, by simp; omega,
      by simp; omega, by simp; omega, by simp; omega, by simp; omega, by simp; omega⟩

/-- One pass of the loop body of `calculate`, condensate `i`: the raw step is
`result[i]` and the new activity correction is
`a * exp (log_tau - ln a - ln n - clamped step)` with `log_tau` the constant that
`calculate` passes for `ln_tau`, `a` the old activity correction and `n` the old
density. -/
theorem iteration_activity {μ mat : Type} (K : Collaborators ℝ μ mat)
    (temperature total_element_density log_tau : ℝ)
    (condensates_act elements_cond : List Nat) (nElem nCond it : Nat) (s : IterState ℝ μ)
    (hdim : Dimensioned K)
    (hact : ∀ p ∈ condensates_act, p < nCond) (helem : ∀ p ∈ elements_cond, p < nElem)
    (hs : Shaped nElem nCond condensates_act elements_cond s)
    (i : Nat) (hi : i < condensates_act.length) :
    ∃ s' conds elems r a n,
      derefAll s.condensates condensates_act = some conds ∧
      derefAll s.elements elements_cond = some elems ∧
      (K.solveSystem
          (K.assembleJacobian conds s.activity_corr_old s.cond_densities_old
            (fillJac condensates_act.length) [] elems s.molecules)
          (K.assembleRightHandSide conds (fillJac condensates_act.length) []
            s.activity_corr_old s.cond_densities_old elems s.molecules
            total_element_density log_tau))[i]? = some r ∧
      s.activity_corr_old[i]? = some a ∧ s.cond_densities_old[i]? = some n ∧
      iteration K Real.exp Real.log temperature total_element_density log_tau
        condensates_act elements_cond (fillJac condensates_act.length) [] it s = some s' ∧
      s'.cond_densities_new[i]? = some (n * Real.exp (clampStep 10 r)) ∧
      s'.activity_corr_new[i]? =
        some (a * Real.exp (log_tau - Real.log a - Real.log n - clampStep 10 r)) := by
  obtain ⟨s', conds, elems, out, hconds, helems, hout, hrange, hs', _, _, _, e1, _, e2, _⟩ :=
    iteration_spec K temperature total_element_density log_tau condensates_act elements_cond
      nElem nCond it s hdim hact helem hs
  obtain ⟨delta, out', hdelta, _, hout', _, _, _, hcv, _⟩ := correctValues_spec _ _ _ _ _ _ _ _
    _ _ _ log_tau 10.0 hrange
  rw [hout] at hout'
  simp only [Option.some.injEq] at hout'
  subst hout'
  obtain ⟨delta', hdelta', _, hjacv, _⟩ := rawSteps_spec Real.log _ _ _ _ _ _ _ _ _ _ _
    log_tau hrange
  rw [hdelta] at hdelta'
  simp only [Option.some.injEq] at hdelta'
  subst hdelta'
  have hr0 := hrange
  obtain ⟨hres, _, _, haco, _, hcdo, _, _, _, _⟩ := hr0
  obtain ⟨_, _, _, _, hcdo', _, haco', _⟩ := hs
  have hjl : (fillJac condensates_act.length).length = condensates_act.length := by
    rw [fillJac_eq, List.length_range]
  have h1 : i < (K.solveSystem
      (K.assembleJacobian conds s.activity_corr_old s.cond_densities_old
        (fillJac condensates_act.length) [] elems s.molecules)
      (K.assembleRightHandSide conds (fillJac condensates_act.length) []
        s.activity_corr_old s.cond_densities_old elems s.molecules
        total_element_density log_tau)).length := by omega
  have h2 : i < s.activity_corr_old.length := by omega
  have h3 : i < s.cond_densities_old.length := by omega
  have hji : (fillJac condensates_act.length)[i]? = some i := by
    rw [fillJac_eq, List.getElem?_range hi]
  have hd := hjacv (by rw [fillJac_eq]; exact List.nodup_range _) i i hji (by simp)
  rw [List.getElem?_eq_getElem h1] at hd
  obtain ⟨hc, ha⟩ := hcv i _ _ _ hd (List.getElem?_eq_getElem h3) (List.getElem?_eq_getElem h2)
  have h10 : (10.0 : ℝ) = 10 := by norm_num
  rw [h10] at hc ha
  exact ⟨s', conds, elems, _, _, _, hconds, helems, List.getElem?_eq_getElem h1,
    List.getElem?_eq_getElem h2, List.getElem?_eq_getElem h3, hs', by rw [e1]; exact hc,
    by rw [e2]; exact ha⟩

/-- The loop of `calculate` with any bound: with valid pointers from the selector
and a solver that respects dimensions, no pass fails and the number of completed
passes equals the bound. -/
theorem calculateUpTo_spec {μ mat : Type} (K : Collaborators ℝ μ mat) (log10 : ℝ → ℝ)
    (temperature total_element_density : ℝ)
    (elements : List (Element ℝ)) (condensates : List (Condensate ℝ)) (molecules : List μ)
    (hdim : Dimensioned K) (hvalid : ValidSelection K elements condensates) (bound : Nat) :
    ∃ s, calculateUpTo K Real.exp Real.log log10 temperature total_element_density
        elements condensates molecules bound = some s ∧
      Shaped elements.length condensates.length
        (K.selectActiveCondensates condensates elements).1
        (K.selectActiveCondensates condensates elements).2 s ∧
      s.iterations = bound := by
  obtain ⟨hv1, hv2⟩ := hvalid
  obtain ⟨s0, hs0, h1, h2, _, h4, h5, h6, h7, h8, h9, h10, _⟩ := initState_spec elements
    condensates molecules (K.selectActiveCondensates condensates elements).1
    (K.selectActiveCondensates condensates elements).2 1e-25 hv2
  have hshape0 : Shaped elements.length condensates.length
      (K.selectActiveCondensates condensates elements).1
      (K.selectActiveCondensates condensates elements).2 s0 :=
    ⟨by rw [h1], by rw [h2], h10, h9, by simp [h5], h7, by simp [h6], h8⟩
  obtain ⟨s, hs, hshape, hit⟩ := forLoop_total
    (fun i (s : IterState ℝ μ) => Shaped elements.length condensates.length
        (K.selectActiveCondensates condensates elements).1
        (K.selectActiveCondensates condensates elements).2 s ∧ s.iterations = i)
    (iteration K Real.exp Real.log temperature total_element_density (log10 1e-25)
      (K.selectActiveCondensates condensates elements).1
      (K.selectActiveCondensates condensates elements).2
      (fillJac (K.selectActiveCondensates condensates elements).1.length) [])
    bound 0 s0 ⟨hshape0, h4⟩
    (by
      rintro j t _ _ ⟨hsh, hj⟩
      obtain ⟨t', _, _, _, _, _, _, _, ht', hsh', hit', _⟩ := iteration_spec K temperature
        total_element_density (log10 1e-25)
        (K.selectActiveCondensates condensates elements).1
        (K.selectActiveCondensates condensates elements).2
        elements.length condensates.length j t hdim hv1 hv2 hsh
      exact ⟨t', ht', hsh', by omega⟩)
  refine ⟨s, ?_, hshape, by simpa using hit⟩
  simp only [calculateUpTo, hs0, Option.bind_eq_bind, Option.some_bind, hs]

/-- In exact real arithmetic, positivity through the loop of `calculate`: the
initial values `tau = 1e-25` and `1.0` are positive, so with positive densities of
the selected elements the old vectors are positive before every pass of the loop. -/
theorem calculateUpTo_positive {μ mat : Type} (K : Collaborators ℝ μ mat) (log10 : ℝ → ℝ)
    (temperature total_element_density : ℝ)
    (elements : List (Element ℝ)) (condensates : List (Condensate ℝ)) (molecules : List μ)
    (hdim : Dimensioned K) (hvalid : ValidSelection K elements condensates)
    (hpos : ∀ p ∈ (K.selectActiveCondensates condensates elements).2,
      ∀ e, elements[p]? = some e → 0 < e.number_density) (bound : Nat) :
    ∃ s, calculateUpTo K Real.exp Real.log log10 temperature total_element_density
        elements condensates molecules bound = some s ∧
      (∀ x ∈ s.cond_densities_old, 0 < x) ∧ (∀ x ∈ s.activity_corr_old, 0 < x) ∧
      (∀ x ∈ s.elem_densities_old, 0 < x) := by
  obtain ⟨hv1, hv2⟩ := hvalid
  obtain ⟨s0, hs0, h1, h2, _, h4, h5, h6, h7, h8, h9, h10, h11⟩ := initState_spec elements
    condensates molecules (K.selectActiveCondensates condensates elements).1
    (K.selectActiveCondensates condensates elements).2 1e-25 hv2
  have hshape0 : Shaped elements.length condensates.length
      (K.selectActiveCondensates condensates elements).1
      (K.selectActiveCondensates condensates elements).2 s0 :=
    ⟨by rw [h1], by rw [h2], h10, h9, by simp [h5], h7, by simp [h6], h8⟩
  have hpos0 : (∀ x ∈ s0.cond_densities_old, 0 < x) ∧ (∀ x ∈ s0.activity_corr_old, 0 < x) ∧
      (∀ x ∈ s0.elem_densities_old, 0 < x) := by
    refine ⟨?_, ?_, ?_⟩
    · intro x hx
      rw [h5] at hx
      rw [(List.mem_replicate.1 hx).2]
      norm_num
    · intro x hx
      rw [h6] at hx
      rw [(List.mem_replicate.1 hx).2]
      norm_num
    · intro x hx
      obtain ⟨i, hi, hix⟩ := getElem?_of_mem_of_length hx
      have hi2 : i < (K.selectActiveCondensates condensates elements).2.length := by omega
      have hp := hv2 _ (List.getElem_mem hi2)
      have := h11 i _ _ (List.getElem?_eq_getElem hi2) (List.getElem?_eq_getElem hp)
      rw [hix] at this
      simp only [Option.some.injEq] at this
      rw [this]
      exact hpos _ (List.getElem_mem hi2) _ (List.getElem?_eq_getElem hp)
  obtain ⟨s, hs, _, hp⟩ := forLoop_total
    (fun _ (s : IterState ℝ μ) => Shaped elements.length condensates.length
        (K.selectActiveCondensates condensates elements).1
        (K.selectActiveCondensates condensates elements).2 s ∧
      ((∀ x ∈ s.cond_densities_old, 0 < x) ∧ (∀ x ∈ s.activity_corr_old, 0 < x) ∧
        (∀ x ∈ s.elem_densities_old, 0 < x)))
    (iteration K Real.exp Real.log temperature total_element_density (log10 1e-25)
      (K.selectActiveCondensates condensates elements).1
      (K.selectActiveCondensates condensates elements).2
      (fillJac (K.selectActiveCondensates condensates elements).1.length) [])
    bound 0 s0 ⟨hshape0, hpos0⟩
    (by
      rintro j t _ _ ⟨hsh, hc, ha, he⟩
      obtain ⟨t', _, _, out, _, _, hout, hrange, ht', hsh', _, e1, _, e2, _, e3, _⟩ :=
        iteration_spec K temperature total_element_density (log10 1e-25)
          (K.selectActiveCondensates condensates elements).1
          (K.selectActiveCondensates condensates elements).2
          elements.length condensates.length j t hdim hv1 hv2 hsh
      obtain ⟨out', hout', p1, p2, p3⟩ := correctValues_pos _ _ _ _ _ _ _ _ _ _ _
        (log10 1e-25) 10.0 hrange hc ha he
      rw [hout] at hout'
      simp only [Option.some.injEq] at hout'
      subst hout'
      exact ⟨t', ht', hsh', by rw [e1]; exact p1, by rw [e2]; exact p2, by rw [e3]; exact p3⟩)
  refine ⟨s, ?_, hp⟩
  simp only [calculateUpTo, hs0, Option.bind_eq_bind, Option.some_bind, hs]

/-- Function `calculate` with valid pointers from the selector and a solver that respects
dimensions: the loop completes 1000 passes and the call ends in `exit(0)`. -/
theorem calculate_spec {μ mat : Type} (K : Collaborators ℝ μ mat) (log10 : ℝ → ℝ)
    (temperature density total_element_density : ℝ)
    (elements : List (Element ℝ)) (condensates : List (Condensate ℝ)) (molecules : List μ)
    (hdim : Dimensioned K) (hvalid : ValidSelection K elements condensates) :
    ∃ s, calculate K Real.exp Real.log log10 temperature density total_element_density
        elements condensates molecules = some (Outcome.exited 0 s) ∧
      calculateUpTo K Real.exp Real.log log10 temperature total_element_density
        elements condensates molecules 1000 = some s ∧
      s.iterations = 1000 := by
  obtain ⟨s, hs, _, hit⟩ := calculateUpTo_spec K log10 temperature total_element_density
    elements condensates molecules hdim hvalid 1000
  refine ⟨s, ?_, hs, hit⟩
  simp only [calculate, calculateLoop, hs, Option.bind_eq_bind, Option.some_bind,
    Option.pure_def, exit]

theorem stubCollaborators_dimensioned (act ec : List Nat) :
    Dimensioned (stubCollaborators act ec : Collaborators ℝ Unit Unit) :=
  ⟨by intros; simp [stubCollaborators], by intros; rfl⟩

/-! ## Further reasoning about loops and `calculate` -/

/-- A counted loop of `a + b` passes is the loop of the first `a` passes followed by
the loop of the next `b` passes. -/
theorem forLoop_add {σ : Type} (body : Nat → σ → Option σ) :
    ∀ (a b start : Nat) (s : σ),
      forLoop body start (a + b) s =
        (forLoop body start a s).bind (forLoop body (start + a) b)
  | 0, b, start, s => by simp [forLoop]
  | a + 1, b, start, s => by
    have e : a + 1 + b = (a + b) + 1 := by omega
    rw [e]
    simp only [forLoop]
    cases hb : body start s with
    | none => simp
    | some t =>
      simp only [Option.some_bind]
      rw [forLoop_add body a b (start + 1) t]
      have e2 : start + 1 + a = start + (a + 1) := by omega
      rw [e2]

/-- A counted loop fails when one of its passes fails on every state. -/
theorem forLoop_none {σ : Type} (body : Nat → σ → Option σ) (j : Nat)
    (hj : ∀ t, body j t = none) :
    ∀ (count start : Nat) (s : σ), start ≤ j → j < start + count →
      forLoop body start count s = none
  | 0, start, s, h1, h2 => by omega
  | count + 1, start, s, h1, h2 => by
    simp only [forLoop]
    by_cases hjs : j = start
    · subst hjs
      simp [hj]
    · cases hb : body start s with
      | none => simp
      | some t =>
        simp only [Option.some_bind]
        exact forLoop_none body j hj count (start + 1) t (by omega) (by omega)

/-- The state after `bound + 1` passes of the loop of `calculate` is the state
after `bound` passes followed by one pass of the loop body with the partition
`condensates_jac = fillJac |condensates_act|`, `condensates_rem = []` and the
constant `log10 tau`. -/
theorem calculateUpTo_succ {μ mat : Type} (K : Collaborators ℝ μ mat) (log10 : ℝ → ℝ)
    (temperature total_element_density : ℝ)
    (elements : List (Element ℝ)) (condensates : List (Condensate ℝ)) (molecules : List μ)
    (bound : Nat) :
    calculateUpTo K Real.exp Real.log log10 temperature total_element_density
        elements condensates molecules (bound + 1) =
      (calculateUpTo K Real.exp Real.log log10 temperature total_element_density
        elements condensates molecules bound).bind
        (iteration K Real.exp Real.log temperature total_element_density (log10 1e-25)
          (K.selectActiveCondensates condensates elements).1
          (K.selectActiveCondensates condensates elements).2
          (fillJac (K.selectActiveCondensates condensates elements).1.length) [] bound) := by
  simp only [calculateUpTo, Option.bind_eq_bind]
  cases initState elements condensates molecules
      (K.selectActiveCondensates condensates elements).1
      (K.selectActiveCondensates condensates elements).2 (1e-25 : ℝ) with
  | none => simp
  | some s0 =>
    simp only [Option.some_bind]
    rw [forLoop_add]
    congr 1
    funext t
    simp [forLoop]

/-- The state after `a + b` passes of the loop of `calculate` is the state after
`a` passes followed by the `b` passes `it = a, ..., a + b - 1` of the loop body. -/
theorem calculateUpTo_add {μ mat : Type} (K : Collaborators ℝ μ mat) (log10 : ℝ → ℝ)
    (temperature total_element_density : ℝ)
    (elements : List (Element ℝ)) (condensates : List (Condensate ℝ)) (molecules : List μ)
    (a b : Nat) :
    calculateUpTo K Real.exp Real.log log10 temperature total_element_density
        elements condensates molecules (a + b) =
      (calculateUpTo K Real.exp Real.log log10 temperature total_element_density
        elements condensates molecules a).bind
        (forLoop (iteration K Real.exp Real.log temperature total_element_density
          (log10 1e-25) (K.selectActiveCondensates condensates elements).1
          (K.selectActiveCondensates condensates elements).2
          (fillJac (K.selectActiveCondensates condensates elements).1.length) []) a b) := by
  simp only [calculateUpTo, Option.bind_eq_bind]
  cases initState elements condensates molecules
      (K.selectActiveCondensates condensates elements).1
      (K.selectActiveCondensates condensates elements).2 (1e-25 : ℝ) with
  | none => simp
  | some s0 =>
    simp only [Option.some_bind]
    rw [forLoop_add, Nat.zero_add]

/-- Raw steps outside the removed set: on in-range vectors `delta_n[k]` for `k`
outside `condensates_rem` is the value that the loop of lines 172-173 leaves, which
is computed from `result` and `condensates_jac` alone. -/
theorem rawSteps_outside_rem (log : ℝ → ℝ) (result : List ℝ)
    (condensates : List (Condensate ℝ))
    (jac rem : List Nat) (aco acn cdo cdn : List ℝ) (elements : List (Element ℝ))
    (edo edn : List ℝ) (L : ℝ)
    (hrange : InRange result condensates jac rem aco acn cdo cdn elements edo edn) :
    ∃ d1 delta,
      forLoop (jacBody result jac) 0 jac.length (List.replicate condensates.length 0)
        = some d1 ∧
      rawSteps log result condensates jac rem aco cdo elements L = some delta ∧
      ∀ k : Nat, k ∉ rem → delta[k]? = d1[k]? := by
  obtain ⟨hres, hjac, hrem, haco, _, hcdo, _, _, _, hst⟩ := hrange
  obtain ⟨d1, hd1, hlen1, _⟩ := jacLoop_spec result jac condensates.length
    (List.replicate condensates.length 0) (by simp) hjac (by omega)
  obtain ⟨d2, hd2, _, hout2, _⟩ := remLoop_spec log result condensates rem aco cdo
    elements L jac.length d1 hlen1 hrem haco hcdo hst hres
  refine ⟨d1, d2, hd1, ?_, hout2⟩
  simp [rawSteps, hd1, hd2]

/-- The two updates of lines 196-199 for positive old values: the new activity
correction is `exp ln_tau / (n * exp d)`, so it does not contain the old activity
correction, and its product with the new density `n * exp d` is `exp ln_tau`. -/
theorem activity_update_eq (a n L d : ℝ) (ha : 0 < a) (hn : 0 < n) :
    a * Real.exp (L - Real.log a - Real.log n - d) = Real.exp L / (n * Real.exp d) ∧
    (a * Real.exp (L - Real.log a - Real.log n - d)) * (n * Real.exp d) = Real.exp L := by
  have hexp : a * Real.exp (L - Real.log a - Real.log n - d) =
      Real.exp L / (n * Real.exp d) := by
    rw [Real.exp_sub, Real.exp_sub, Real.exp_sub, Real.exp_log ha, Real.exp_log hn]
    have := Real.exp_pos d
    field_simp
    ring
  refine ⟨hexp, ?_⟩
  rw [hexp]
  have := Real.exp_pos d
  field_simp

/-- Lines 125-126 with valid pointers: the loop does not fail and keeps the number
of element records; a record outside `elements_cond` is unchanged, no record
changes its `index`, and with distinct pointers the record `elements_cond[i]`
ends with `number_density = elem_densities_new[i]`. -/
theorem writeBack_spec (elements_cond : List Nat) (edn : List ℝ)
    (elements : List (Element ℝ)) (hvalid : ∀ p ∈ elements_cond, p < elements.length)
    (hedn : edn.length = elements_cond.length) :
    ∃ es, forLoop (writeBackBody elements_cond edn) 0 elements_cond.length elements = some es ∧
      es.length = elements.length ∧
      (∀ p : Nat, p ∉ elements_cond → es[p]? = elements[p]?) ∧
      (∀ p : Nat, (es[p]?).map Element.index = (elements[p]?).map Element.index) ∧
      (elements_cond.Nodup → ∀ (i p : Nat), elements_cond[i]? = some p →
        (es[p]?).map Element.number_density = edn[i]?) := by
  have h := forLoop_total
    (fun i (t : List (Element ℝ)) => t.length = elements.length ∧
      (∀ p : Nat, (∀ j : Nat, j < i → elements_cond[j]? ≠ some p) → t[p]? = elements[p]?) ∧
      (∀ p : Nat, (t[p]?).map Element.index = (elements[p]?).map Element.index) ∧
      (elements_cond.Nodup → ∀ (j p : Nat), j < i → elements_cond[j]? = some p →
        (t[p]?).map Element.number_density = edn[j]?))
    (writeBackBody elements_cond edn) elements_cond.length 0 elements
    ⟨rfl, fun _ _ => rfl, fun _ => rfl, by intro _ j p hj; omega⟩
    (by
      rintro i t _ hi ⟨hlen, hout, hidx, hnd⟩
      have h1 : i < elements_cond.length := by omega
      have h2 : i < edn.length := by omega
      have h3 : elements_cond[i] < t.length := by
        rw [hlen]; exact hvalid _ (List.getElem_mem h1)
      refine ⟨t.set elements_cond[i] { t[elements_cond[i]] with number_density := edn[i] },
        ?_, by simpa using hlen, ?_, ?_, ?_⟩
      · simp [writeBackBody, readAt, writeAt, h1, h2, h3, List.getElem?_eq_getElem]
      · intro p hp
        have hne : elements_cond[i] ≠ p := by
          intro he
          exact hp i (by omega) (by rw [List.getElem?_eq_getElem h1, he])
        rw [List.getElem?_set_ne hne]
        exact hout p (fun j hj => hp j (by omega))
      · intro p
        by_cases hpe : elements_cond[i] = p
        · subst hpe
          rw [← hidx]
          simp [List.getElem?_set, h3, List.getElem?_eq_getElem h3]
        · rw [List.getElem?_set_ne hpe]
          exact hidx p
      · intro hnodup j p hj hjp
        by_cases hji : j = i
        · subst hji
          rw [List.getElem?_eq_getElem h1] at hjp
          simp only [Option.some.injEq] at hjp
          subst hjp
          simp [List.getElem?_set, h3, List.getElem?_eq_getElem h2]
        · have hjl : j < elements_cond.length := lt_length_of_getElem? hjp
          have hne : elements_cond[i] ≠ p := by
            intro he
            rw [List.getElem?_eq_getElem hjl] at hjp
            simp only [Option.some.injEq] at hjp
            have := hnodup.getElem_inj_iff.1 (he.trans hjp.symm)
            exact hji this.symm
          rw [List.getElem?_set_ne hne]
          exact hnd hnodup j p (by omega) hjp)
  obtain ⟨es, hes, hlen, hout, hidx, hnd⟩ := h
  refine ⟨es, hes, hlen, ?_, hidx, ?_⟩
  · intro p hp
    exact hout p (fun j _ hj => hp (List.getElem?_mem hj))
  · intro hnodup i p hip
    exact hnd hnodup i p (by simpa using lt_length_of_getElem? hip) hip

/-- Element records over one pass of the loop body of `calculate`: the pass keeps
the number of records, leaves a record outside `elements_cond` unchanged, changes
no `index`, and with distinct pointers the record `elements_cond[i]` ends with the
`number_density` that is promoted to `elem_densities_old[i]`. -/
theorem iteration_elements {μ mat : Type} (K : Collaborators ℝ μ mat)
    (temperature total_element_density log_tau : ℝ)
    (condensates_act elements_cond : List Nat) (nElem nCond it : Nat) (s : IterState ℝ μ)
    (hdim : Dimensioned K)
    (hact : ∀ p ∈ condensates_act, p < nCond) (helem : ∀ p ∈ elements_cond, p < nElem)
    (hs : Shaped nElem nCond condensates_act elements_cond s) :
    ∃ s', iteration K Real.exp Real.log temperature total_element_density log_tau
        condensates_act elements_cond (fillJac condensates_act.length) [] it s = some s' ∧
      Shaped nElem nCond condensates_act elements_cond s' ∧
      s'.iterations = s.iterations + 1 ∧
      (∀ p : Nat, p ∉ elements_cond → s'.elements[p]? = s.elements[p]?) ∧
      (∀ p : Nat, (s'.elements[p]?).map Element.index =
        (s.elements[p]?).map Element.index) ∧
      (elements_cond.Nodup → ∀ (i p : Nat), elements_cond[i]? = some p →
        (s'.elements[p]?).map Element.number_density = s'.elem_densities_old[i]?) := by
  obtain ⟨s', conds, elems, out, hconds, helems, hcorr, hrange, hs', hsh', hit', _, _, _, _,
    e5, _⟩ := iteration_spec K temperature total_element_density log_tau condensates_act
      elements_cond nElem nCond it s hdim hact helem hs
  obtain ⟨hE, hC, _⟩ := hs
  obtain ⟨_, out2, _, _, hout2, _, _, hl3, _, _⟩ := correctValues_spec _ _ _ _ _ _ _ _ _ _ _
    log_tau 10.0 hrange
  rw [hcorr] at hout2
  simp only [Option.some.injEq] at hout2
  subst hout2
  have helen : elems.length = elements_cond.length := by
    obtain ⟨xs, hxs, hxl, _⟩ := derefAll_spec s.elements elements_cond
      (fun p hp => by rw [hE]; exact helem p hp)
    rw [helems] at hxs
    simp only [Option.some.injEq] at hxs
    rw [hxs]; exact hxl
  obtain ⟨es, hes, _, hout, hidx, hnd⟩ := writeBack_spec elements_cond
    out.elem_number_dens_new s.elements (fun p hp => by rw [hE]; exact helem p hp) (by omega)
  obtain ⟨cs, hcs, _⟩ := activity_total K.calcActivity temperature es condensates_act
    s.condensates (fun p hp => by rw [hC]; exact hact p hp)
  have hel : s'.elements = es := by
    have h := hs'
    simp only [iteration, hconds, helems, Option.bind_eq_bind, Option.some_bind, hcorr, hes,
      hcs, Option.pure_def, Option.some.injEq] at h
    rw [← h]
  refine ⟨s', hs', hsh', hit', ?_, ?_, ?_⟩
  · rw [hel]; exact hout
  · rw [hel]; exact hidx
  · rw [hel, e5]; exact hnd

/-- Element records through the loop of `calculate`: after any number of passes the
catalogue has its initial length, a record outside `elements_cond` is the initial
record, every record has its initial `index`, and with distinct pointers the
record `elements_cond[i]` has `number_density = elem_densities_old[i]`. -/
theorem calculateUpTo_elements {μ mat : Type} (K : Collaborators ℝ μ mat) (log10 : ℝ → ℝ)
    (temperature total_element_density : ℝ)
    (elements : List (Element ℝ)) (condensates : List (Condensate ℝ)) (molecules : List μ)
    (hdim : Dimensioned K) (hvalid : ValidSelection K elements condensates) :
    ∀ bound : Nat, ∃ s,
      calculateUpTo K Real.exp Real.log log10 temperature total_element_density
        elements condensates molecules bound = some s ∧
      Shaped elements.length condensates.length
        (K.selectActiveCondensates condensates elements).1
        (K.selectActiveCondensates condensates elements).2 s ∧
      s.iterations = bound ∧
      (∀ p : Nat, p ∉ (K.selectActiveCondensates condensates elements).2 →
        s.elements[p]? = elements[p]?) ∧
      (∀ p : Nat, (s.elements[p]?).map Element.index = (elements[p]?).map Element.index) ∧
      ((K.selectActiveCondensates condensates elements).2.Nodup → ∀ (i p : Nat),
        (K.selectActiveCondensates condensates elements).2[i]? = some p →
        (s.elements[p]?).map Element.number_density = s.elem_densities_old[i]?)
  | 0 => by
    obtain ⟨s0, hs0, h1, h2, _, h4, h5, h6, h7, h8, h9, h10, h11⟩ := initState_spec elements
      condensates molecules (K.selectActiveCondensates condensates elements).1
      (K.selectActiveCondensates condensates elements).2 1e-25 hvalid.2
    refine ⟨s0, ?_, ⟨by rw [h1], by rw [h2], h10, h9, by simp [h5], h7, by simp [h6], h8⟩,
      h4, ?_, ?_, ?_⟩
    · simp only [calculateUpTo, hs0, Option.bind_eq_bind, Option.some_bind, forLoop]
    · intro p _; rw [h1]
    · intro p; rw [h1]
    · intro _ i p hip
      have hp : p < elements.length := hvalid.2 p (List.getElem?_mem hip)
      rw [h1, h11 i p elements[p] hip (List.getElem?_eq_getElem hp),
        List.getElem?_eq_getElem hp]
      rfl
  | bound + 1 => by
    obtain ⟨s, hs, hsh, hit, hout, hidx, _⟩ := calculateUpTo_elements K log10 temperature
      total_element_density elements condensates molecules hdim hvalid bound
    obtain ⟨s', hs', hsh', hit', hout', hidx', hnd'⟩ := iteration_elements K temperature
      total_element_density (log10 1e-25)
      (K.selectActiveCondensates condensates elements).1
      (K.selectActiveCondensates condensates elements).2
      elements.length condensates.length bound s hdim hvalid.1 hvalid.2 hsh
    refine ⟨s', ?_, hsh', by omega, ?_, ?_, hnd'⟩
    · rw [calculateUpTo_succ, hs, Option.some_bind, hs']
    · intro p hp
      rw [hout' p hp, hout p hp]
    · intro p
      rw [hidx' p, hidx p]

/-- With an empty `condensates_rem` the loop of lines 178-188 has no pass: the raw
steps are what the loop of lines 172-173 leaves. -/
theorem rawSteps_nil {α : Type} [Add α] [Sub α] [Mul α] [Div α] [OfNat α 0] [OfNat α 1]
    (log : α → α) (result : List α) (condensates : List (Condensate α))
    (jac : List Nat) (aco cdo : List α) (elements : List (Element α)) (L : α) :
    rawSteps log result condensates jac [] aco cdo elements L =
      forLoop (jacBody result jac) 0 jac.length (List.replicate condensates.length 0) := by
  simp only [rawSteps, Option.bind_eq_bind, List.length_nil]
  cases forLoop (jacBody result jac) 0 jac.length (List.replicate condensates.length 0) with
  | none => rfl
  | some d => simp [forLoop]

/-! ## Lemmas in exact real arithmetic

The lemmas of this section, `correctValues_pos` and `calculateUpTo_positive` hold for
the real numbers with `Real.exp` and `Real.log`. They rest on `0 < exp x`, on the
monotonicity of `exp` and on `exp (ln x) = x`, and say nothing about underflow,
overflow and values that are not numbers in `double` or `long double`. -/

/-- In exact real arithmetic, with clamp bound `M ≥ 0` and strictly positive old
number densities, every condensate position and every element position satisfies
`old * exp (-M) ≤ new ≤ old * exp M`. The proof uses that every real step is
clamped into `[-M, M]` and that `exp` is monotone; a step that is not a number
(line 183 can produce one from finite inputs in `double`) is outside this lemma. -/
theorem correctValues_bounded (result : List ℝ) (condensates : List (Condensate ℝ))
    (condensates_jac condensates_rem : List Nat)
    (activity_corr_old activity_corr_new cond_number_dens_old cond_number_dens_new : List ℝ)
    (elements : List (Element ℝ)) (elem_number_dens_old elem_number_dens_new : List ℝ)
    (ln_tau max_change : ℝ)
    (hrange : InRange result condensates condensates_jac condensates_rem activity_corr_old
      activity_corr_new cond_number_dens_old cond_number_dens_new elements
      elem_number_dens_old elem_number_dens_new)
    (hM : 0 ≤ max_change)
    (hcond : ∀ x ∈ cond_number_dens_old, 0 < x)
    (helem : ∀ x ∈ elem_number_dens_old, 0 < x) :
    ∃ out, correctValues Real.exp Real.log result condensates condensates_jac condensates_rem
        activity_corr_old activity_corr_new cond_number_dens_old cond_number_dens_new
        elements elem_number_dens_old elem_number_dens_new ln_tau max_change = some out ∧
      (∀ i : Nat, i < condensates.length → ∃ old new,
        cond_number_dens_old[i]? = some old ∧ out.cond_number_dens_new[i]? = some new ∧
        old * Real.exp (-max_change) ≤ new ∧ new ≤ old * Real.exp max_change) ∧
      (∀ j : Nat, j < elements.length → ∃ old new,
        elem_number_dens_old[j]? = some old ∧ out.elem_number_dens_new[j]? = some new ∧
        old * Real.exp (-max_change) ≤ new ∧ new ≤ old * Real.exp max_change) := by
  obtain ⟨delta, out, _, hlen, hout, _, _, _, hcv, hev⟩ :=
    correctValues_spec result condensates condensates_jac condensates_rem activity_corr_old
      activity_corr_new cond_number_dens_old cond_number_dens_new elements
      elem_number_dens_old elem_number_dens_new ln_tau max_change hrange
  obtain ⟨hres, _, _, haco, _, hcdo, _, hedo, _, _⟩ := hrange
  have hbound : ∀ old d : ℝ, 0 < old →
      old * Real.exp (-max_change) ≤ old * Real.exp (clampStep max_change d) ∧
      old * Real.exp (clampStep max_change d) ≤ old * Real.exp max_change := by
    intro old d hold
    obtain ⟨hlo, hhi⟩ := clampStep_mem max_change d hM
    exact ⟨mul_le_mul_of_nonneg_left (Real.exp_le_exp.2 hlo) hold.le,
      mul_le_mul_of_nonneg_left (Real.exp_le_exp.2 hhi) hold.le⟩
  refine ⟨out, hout, ?_, ?_⟩
  · intro i hi
    have h1 : i < delta.length := by omega
    have h2 : i < cond_number_dens_old.length := by omega
    have h3 : i < activity_corr_old.length := by omega
    refine ⟨cond_number_dens_old[i], _, List.getElem?_eq_getElem h2,
      (hcv i delta[i] cond_number_dens_old[i] activity_corr_old[i]
        (List.getElem?_eq_getElem h1) (List.getElem?_eq_getElem h2)
        (List.getElem?_eq_getElem h3)).1, ?_⟩
    exact hbound _ _ (hcond _ (List.getElem_mem h2))
  · intro j hj
    have h1 : j + condensates_jac.length < result.length := by omega
    have h2 : j < elem_number_dens_old.length := by omega
    refine ⟨elem_number_dens_old[j], _, List.getElem?_eq_getElem h2,
      hev j _ _ (List.getElem?_eq_getElem h1) (List.getElem?_eq_getElem h2), ?_⟩
    exact hbound _ _ (helem _ (List.getElem_mem h2))

/-- In exact real arithmetic, for every condensate index `i` with
`activity_corr_old[i] > 0` and `cond_number_dens_old[i] > 0` the outputs satisfy
`activity_corr_new[i] * cond_number_dens_new[i] = exp ln_tau`, and for `i`
outside `condensates_rem` the value `activity_corr_new[i]` is the same for every
positive `activity_corr_old[i]`. The proof uses `exp (x - y) = exp x / exp y` and
`exp (ln x) = x`, which hold for real numbers only. -/
theorem correctValues_complementarity (result : List ℝ) (condensates : List (Condensate ℝ))
    (condensates_jac condensates_rem : List Nat)
    (activity_corr_old activity_corr_new cond_number_dens_old cond_number_dens_new : List ℝ)
    (elements : List (Element ℝ)) (elem_number_dens_old elem_number_dens_new : List ℝ)
    (ln_tau max_change : ℝ) (i : Nat) (a n : ℝ)
    (hrange : InRange result condensates condensates_jac condensates_rem activity_corr_old
      activity_corr_new cond_number_dens_old cond_number_dens_new elements
      elem_number_dens_old elem_number_dens_new)
    (ha : activity_corr_old[i]? = some a) (hn : cond_number_dens_old[i]? = some n)
    (hapos : 0 < a) (hnpos : 0 < n) :
    ∃ out x y,
      correctValues Real.exp Real.log result condensates condensates_jac condensates_rem
        activity_corr_old activity_corr_new cond_number_dens_old cond_number_dens_new
        elements elem_number_dens_old elem_number_dens_new ln_tau max_change = some out ∧
      out.activity_corr_new[i]? = some x ∧ out.cond_number_dens_new[i]? = some y ∧
      x * y = Real.exp ln_tau ∧
      (i ∉ condensates_rem → ∀ a' : ℝ, 0 < a' →
        ∃ out', correctValues Real.exp Real.log result condensates condensates_jac
            condensates_rem (activity_corr_old.set i a') activity_corr_new
            cond_number_dens_old cond_number_dens_new elements elem_number_dens_old
            elem_number_dens_new ln_tau max_change = some out' ∧
          out'.activity_corr_new[i]? = some x) := by
  obtain ⟨delta, out, hdelta, hlen, hout, _, _, _, hcv, _⟩ :=
    correctValues_spec result condensates condensates_jac condensates_rem activity_corr_old
      activity_corr_new cond_number_dens_old cond_number_dens_new elements
      elem_number_dens_old elem_number_dens_new ln_tau max_change hrange
  have hi : i < activity_corr_old.length := lt_length_of_getElem? ha
  have hr0 := hrange
  obtain ⟨hres, hjac, hrem, haco, hacn, hcdo, hcdn, hedo, hedn, hst⟩ := hr0
  have hid : i < delta.length := by omega
  obtain ⟨hc1, ha1⟩ := hcv i delta[i] n a (List.getElem?_eq_getElem hid) hn ha
  obtain ⟨hform, hprod⟩ := activity_update_eq a n ln_tau (clampStep max_change delta[i])
    hapos hnpos
  refine ⟨out, _, _, hout, ha1, hc1, hprod, ?_⟩
  intro hirem a' ha'pos
  have hrange' : InRange result condensates condensates_jac condensates_rem
      (activity_corr_old.set i a') activity_corr_new cond_number_dens_old
      cond_number_dens_new elements elem_number_dens_old elem_number_dens_new :=
    ⟨hres, hjac, hrem, by simpa using haco, hacn, hcdo, hcdn, hedo, hedn, hst⟩
  obtain ⟨delta', out', hdelta', hlen', hout', _, _, _, hcv', _⟩ :=
    correctValues_spec result condensates condensates_jac condensates_rem
      (activity_corr_old.set i a') activity_corr_new cond_number_dens_old
      cond_number_dens_new elements elem_number_dens_old elem_number_dens_new ln_tau
      max_change hrange'
  obtain ⟨d1, e1, hd1, he1, hsame1⟩ := rawSteps_outside_rem Real.log result condensates
    condensates_jac condensates_rem activity_corr_old activity_corr_new cond_number_dens_old
    cond_number_dens_new elements elem_number_dens_old elem_number_dens_new ln_tau hrange
  obtain ⟨d2, e2, hd2, he2, hsame2⟩ := rawSteps_outside_rem Real.log result condensates
    condensates_jac condensates_rem (activity_corr_old.set i a') activity_corr_new
    cond_number_dens_old cond_number_dens_new elements elem_number_dens_old
    elem_number_dens_new ln_tau hrange'
  rw [hdelta] at he1
  rw [hdelta'] at he2
  rw [hd1] at hd2
  simp only [Option.some.injEq] at he1 he2 hd2
  subst he1 he2 hd2
  have hdd : delta'[i]? = some delta[i] := by
    rw [hsame2 i hirem, ← hsame1 i hirem, List.getElem?_eq_getElem hid]
  have ha' : (activity_corr_old.set i a')[i]? = some a' := by
    simp [List.getElem?_set, hi]
  obtain ⟨_, ha2⟩ := hcv' i delta[i] n a' hdd hn ha'
  refine ⟨out', hout', ?_⟩
  rw [ha2, hform,
    (activity_update_eq a' n ln_tau (clampStep max_change delta[i]) ha'pos hnpos).1]

/-! ## The claims -/

/-- C2. Clamping of an active condensate's step: with clamp bound `M ≥ 0`, distinct
entries of `condensates_jac` and `k = condensates_jac[i]` outside
`condensates_rem`, the raw step `delta_n[k]` is `result[i]` and
`cond_number_dens_new[k] = cond_number_dens_old[k] * exp s`, where `s = M` if
`result[i] > M`, `s = -M` if `result[i] < -M` and `s = result[i]` otherwise. -/
theorem correctValues_jacobian_step (result : List ℝ) (condensates : List (Condensate ℝ))
    (condensates_jac condensates_rem : List Nat)
    (activity_corr_old activity_corr_new cond_number_dens_old cond_number_dens_new : List ℝ)
    (elements : List (Element ℝ)) (elem_number_dens_old elem_number_dens_new : List ℝ)
    (ln_tau max_change : ℝ) (i k : Nat)
    (hrange : InRange result condensates condensates_jac condensates_rem activity_corr_old
      activity_corr_new cond_number_dens_old cond_number_dens_new elements
      elem_number_dens_old elem_number_dens_new)
    (hM : 0 ≤ max_change) (hdistinct : condensates_jac.Nodup)
    (hik : condensates_jac[i]? = some k) (hk : k ∉ condensates_rem) :
    ∃ delta out r n,
      result[i]? = some r ∧ cond_number_dens_old[k]? = some n ∧
      rawSteps Real.log result condensates condensates_jac condensates_rem
        activity_corr_old cond_number_dens_old elements ln_tau = some delta ∧
      delta[k]? = some r ∧
      correctValues Real.exp Real.log result condensates condensates_jac condensates_rem
        activity_corr_old activity_corr_new cond_number_dens_old cond_number_dens_new
        elements elem_number_dens_old elem_number_dens_new ln_tau max_change = some out ∧
      out.cond_number_dens_new[k]? = some (n * Real.exp
        (if r > max_change then max_change else if r < -max_change then -max_change else r)) := by
  obtain ⟨delta, out, hdelta, hlen, hout, _, _, _, hcv, _⟩ :=
    correctValues_spec result condensates condensates_jac condensates_rem activity_corr_old
      activity_corr_new cond_number_dens_old cond_number_dens_new elements
      elem_number_dens_old elem_number_dens_new ln_tau max_change hrange
  obtain ⟨delta', hdelta', _, hjacv, _⟩ := rawSteps_spec Real.log result condensates
    condensates_jac condensates_rem activity_corr_old activity_corr_new cond_number_dens_old
    cond_number_dens_new elements elem_number_dens_old elem_number_dens_new ln_tau hrange
  rw [hdelta] at hdelta'
  simp only [Option.some.injEq] at hdelta'
  subst hdelta'
  obtain ⟨hres, hjac, _, haco, _, hcdo, _, _, _, _⟩ := hrange
  have hi : i < condensates_jac.length := lt_length_of_getElem? hik
  have hkn : k < condensates.length := hjac k (List.getElem?_mem hik)
  have h1 : i < result.length := by omega
  have h2 : k < cond_number_dens_old.length := by omega
  have h3 : k < activity_corr_old.length := by omega
  have hdk : delta[k]? = some result[i] := by
    rw [hjacv hdistinct i k hik hk, List.getElem?_eq_getElem h1]
  refine ⟨delta, out, result[i], cond_number_dens_old[k], List.getElem?_eq_getElem h1,
    List.getElem?_eq_getElem h2, hdelta, hdk, hout, ?_⟩
  rw [(hcv k result[i] cond_number_dens_old[k] activity_corr_old[k] hdk
    (List.getElem?_eq_getElem h2) (List.getElem?_eq_getElem h3)).1]
  congr 3
  unfold clampStep
  simp only [gt_iff_lt]
  split_ifs <;> first | rfl | linarith

/-- Witness of C2 (scenario D): a raw step of 50 with clamp bound 10 gives the new
density `old density * e^10`. -/
theorem correctValues_jacobian_step_witness :
    InRange ([50] : List ℝ) [⟨[], 0⟩] [0] [] [1] [0] [3] [0] [] [] [] ∧
    (0 : ℝ) ≤ 10 ∧ ([0] : List Nat).Nodup ∧ ([0] : List Nat)[0]? = some 0 ∧
    0 ∉ ([] : List Nat) ∧
    ∃ out, correctValues Real.exp Real.log ([50] : List ℝ) [⟨[], 0⟩] [0] [] [1] [0] [3] [0]
        [] [] [] (-25) 10 = some out ∧
      out.cond_number_dens_new[0]? = some (3 * Real.exp 10) := by
  have hr : InRange ([50] : List ℝ) [⟨[], 0⟩] [0] [] [1] [0] [3] [0] [] [] [] := by
    simp [InRange]
  obtain ⟨delta, out, r, n, hr', hn, _, _, hout, hv⟩ :=
    correctValues_jacobian_step ([50] : List ℝ) [⟨[], 0⟩] [0] [] [1] [0] [3] [0] [] [] []
      (-25) 10 0 0 hr (by norm_num) (by simp) (by simp) (by simp)
  simp only [List.getElem?_cons_zero, Option.some.injEq] at hr' hn
  subst hr' hn
  refine ⟨hr, by norm_num, by simp, by simp, by simp, out, hout, ?_⟩
  rw [hv]
  norm_num

/-- C3. Element update: for every element position `j` and clamp bound `M ≥ 0`,
`elem_number_dens_new[j] = elem_number_dens_old[j] *
exp (clamp (result[j + |condensates_jac|], -M, M))`. -/
theorem correctValues_element_update (result : List ℝ) (condensates : List (Condensate ℝ))
    (condensates_jac condensates_rem : List Nat)
    (activity_corr_old activity_corr_new cond_number_dens_old cond_number_dens_new : List ℝ)
    (elements : List (Element ℝ)) (elem_number_dens_old elem_number_dens_new : List ℝ)
    (ln_tau max_change : ℝ) (j : Nat)
    (hrange : InRange result condensates condensates_jac condensates_rem activity_corr_old
      activity_corr_new cond_number_dens_old cond_number_dens_new elements
      elem_number_dens_old elem_number_dens_new)
    (hM : 0 ≤ max_change) (hj : j < elements.length) :
    ∃ out r n,
      result[j + condensates_jac.length]? = some r ∧ elem_number_dens_old[j]? = some n ∧
      correctValues Real.exp Real.log result condensates condensates_jac condensates_rem
        activity_corr_old activity_corr_new cond_number_dens_old cond_number_dens_new
        elements elem_number_dens_old elem_number_dens_new ln_tau max_change = some out ∧
      out.elem_number_dens_new[j]? = some (n * Real.exp (max (-max_change) (min r max_change))) := by
  obtain ⟨delta, out, _, _, hout, _, _, _, _, hev⟩ :=
    correctValues_spec result condensates condensates_jac condensates_rem activity_corr_old
      activity_corr_new cond_number_dens_old cond_number_dens_new elements
      elem_number_dens_old elem_number_dens_new ln_tau max_change hrange
  obtain ⟨hres, _, _, _, _, _, _, hedo, _, _⟩ := hrange
  have h1 : j + condensates_jac.length < result.length := by omega
  have h2 : j < elem_number_dens_old.length := by omega
  refine ⟨out, result[j + condensates_jac.length], elem_number_dens_old[j],
    List.getElem?_eq_getElem h1, List.getElem?_eq_getElem h2, hout, ?_⟩
  rw [hev j _ _ (List.getElem?_eq_getElem h1) (List.getElem?_eq_getElem h2),
    clampStep_eq_clamp _ _ hM]

/-- Witness of C3: two Jacobian condensates, two elements; the element steps are the
third and fourth entry of `result`. -/
theorem correctValues_element_update_witness :
    InRange ([1, 2, 3, -40] : List ℝ) [⟨[], 0⟩, ⟨[], 0⟩]
        [0, 1] [] [1, 1] [0, 0] [1, 1] [0, 0] [⟨0, 7⟩, ⟨1, 8⟩] [7, 8] [0, 0] ∧
    (0 : ℝ) ≤ 10 ∧ 1 < ([⟨0, 7⟩, ⟨1, 8⟩] : List (Element ℝ)).length ∧
    ∃ out, correctValues Real.exp Real.log ([1, 2, 3, -40] : List ℝ) [⟨[], 0⟩, ⟨[], 0⟩]
        [0, 1] [] [1, 1] [0, 0] [1, 1] [0, 0] [⟨0, 7⟩, ⟨1, 8⟩] [7, 8] [0, 0] (-25) 10
        = some out ∧
      out.elem_number_dens_new[1]? = some (8 * Real.exp (-10)) := by
  have hr : InRange ([1, 2, 3, -40] : List ℝ) [⟨[], 0⟩, ⟨[], 0⟩]
        [0, 1] [] [1, 1] [0, 0] [1, 1] [0, 0] [⟨0, 7⟩, ⟨1, 8⟩] [7, 8] [0, 0] := by
    simp [InRange]
  obtain ⟨out, r, n, hr', hn, hout, hv⟩ :=
    correctValues_element_update ([1, 2, 3, -40] : List ℝ) [⟨[], 0⟩, ⟨[], 0⟩]
        [0, 1] [] [1, 1] [0, 0] [1, 1] [0, 0] [⟨0, 7⟩, ⟨1, 8⟩] [7, 8] [0, 0] (-25) 10 1
        hr (by norm_num) (by simp)
  simp at hr' hn
  subst hr' hn
  refine ⟨hr, by norm_num, by simp, out, hout, ?_⟩
  rw [hv]
  norm_num

/-- C5 as stated fails: with a zero solution vector, an empty removed set and
positive old values (`activity_corr_old = [2]`, `cond_number_dens_old = [1]`,
`ln_tau = 0`) the new activity correction is `1`, not the old value `2`. -/
theorem correctValues_zero_step_counterexample :
    InRange ([0] : List ℝ) [⟨[], 0⟩] [0] [] [2] [0] [1] [0] [] [] [] ∧
    (∀ x ∈ ([0] : List ℝ), x = 0) ∧
    (∀ x ∈ ([1] : List ℝ), 0 < x) ∧ (∀ x ∈ ([2] : List ℝ), 0 < x) ∧
    ∃ out, correctValues Real.exp Real.log ([0] : List ℝ) [⟨[], 0⟩] [0] [] [2] [0] [1] [0]
        [] [] [] 0 10 = some out ∧
      out.activity_corr_new = [1] ∧ out.activity_corr_new ≠ [2] := by
  refine ⟨by simp [InRange], by simp, by simp, by simp, ⟨[1], [1], []⟩, ?_, rfl, by norm_num⟩
  have h10 : ¬ ((10 : ℝ) < 0) := by norm_num
  have hexp : (2 : ℝ) * Real.exp (-Real.log 2) = 1 := by
    rw [Real.exp_neg, Real.exp_log (by norm_num)]
    norm_num
  simp [correctValues, rawSteps, forLoop, jacBody, condBody, readAt, writeAt, h10, hexp]

/-- C5, amended. With an empty removed set, a zero solution vector and a clamp bound
`M` with neither `M < 0` nor `0 < -M` (that is `M ≥ 0`), `correctValues` returns
the old condensate and element densities unchanged, and the new activity
correction of condensate `i` is the value of line 198-199 at step `0`,
`a * exp (ln_tau - ln a - ln n - 0)`, which need not be the old one. The number type
is arbitrary: the only laws of arithmetic used are `exp 0 = 1` and `x * 1 = x`. -/
theorem correctValues_zero_step {α : Type} [Add α] [Sub α] [Mul α] [Div α] [Neg α] [LT α]
    [DecidableRel (fun a b : α => a < b)] [OfNat α 0] [OfNat α 1]
    (exp log : α → α) (result : List α) (condensates : List (Condensate α))
    (condensates_jac : List Nat)
    (activity_corr_old activity_corr_new cond_number_dens_old cond_number_dens_new : List α)
    (elements : List (Element α)) (elem_number_dens_old elem_number_dens_new : List α)
    (ln_tau max_change : α)
    (hexp : exp 0 = 1) (hmul : ∀ x : α, x * 1 = x)
    (hM : ¬ max_change < 0) (hM' : ¬ 0 < -max_change)
    (hrange : InRange result condensates condensates_jac [] activity_corr_old
      activity_corr_new cond_number_dens_old cond_number_dens_new elements
      elem_number_dens_old elem_number_dens_new)
    (hzero : ∀ x ∈ result, x = 0) :
    ∃ out, correctValues exp log result condensates condensates_jac []
        activity_corr_old activity_corr_new cond_number_dens_old cond_number_dens_new
        elements elem_number_dens_old elem_number_dens_new ln_tau max_change = some out ∧
      out.cond_number_dens_new = cond_number_dens_old ∧
      out.elem_number_dens_new = elem_number_dens_old ∧
      out.activity_corr_new.length = activity_corr_old.length ∧
      ∀ (i : Nat) a n, activity_corr_old[i]? = some a → cond_number_dens_old[i]? = some n →
        out.activity_corr_new[i]? = some (a * exp (ln_tau - log a - log n - 0)) := by
  obtain ⟨hres, hjac, _, haco, hacn, hcdo, hcdn, hedo, hedn, _⟩ := hrange
  obtain ⟨d1, hd1, hlen1, _, _, hfrom⟩ := jacLoop_spec result condensates_jac
    condensates.length (List.replicate condensates.length 0) (by simp) hjac (by omega)
  have hraw : rawSteps log result condensates condensates_jac [] activity_corr_old
      cond_number_dens_old elements ln_tau = some d1 := by
    rw [rawSteps_nil]; exact hd1
  have hd0 : ∀ (k : Nat) d, d1[k]? = some d → d = 0 := by
    intro k d hd
    rcases hfrom k d hd with h | h
    · have hk : k < condensates.length := by
        simpa using lt_length_of_getElem? h
      simp only [List.getElem?_replicate, hk, if_true, Option.some.injEq] at h
      exact h.symm
    · exact hzero d h
  obtain ⟨s, hs, hsl1, hsl2, hsv⟩ := condLoop_spec exp log activity_corr_old
    cond_number_dens_old ln_tau max_change condensates.length d1 cond_number_dens_new
    activity_corr_new hlen1 haco hcdo hcdn hacn
  obtain ⟨e, he, hel, hev⟩ := elemLoop_spec exp result elem_number_dens_old
    condensates_jac.length max_change elements.length elem_number_dens_new (by omega)
    hedo hedn
  have hclamp : clampStep max_change (0 : α) = 0 := by
    simp only [clampStep, gt_iff_lt, hM, if_false, hM']
  have hkeep : ∀ x : α, x * exp (clampStep max_change 0) = x := by
    intro x
    rw [hclamp, hexp, hmul]
  refine ⟨⟨s.activity_corr_new, s.cond_number_dens_new, e⟩, ?_, ?_, ?_, by simp; omega, ?_⟩
  · simp only [correctValues, hraw, Option.bind_eq_bind, Option.some_bind, hs, he,
      Option.pure_def]
  · apply List.ext_getElem?
    intro i
    by_cases hi : i < condensates.length
    · have h1 : i < d1.length := by omega
      have h2 : i < cond_number_dens_old.length := by omega
      have h3 : i < activity_corr_old.length := by omega
      have hdi : d1[i]? = some 0 := by
        rw [List.getElem?_eq_getElem h1, hd0 i d1[i] (List.getElem?_eq_getElem h1)]
      have := (hsv i 0 _ _ hdi (List.getElem?_eq_getElem h2) (List.getElem?_eq_getElem h3)).1
      simp only at this ⊢
      rw [this, hkeep, List.getElem?_eq_getElem h2]
    · simp only
      rw [List.getElem?_eq_none (by omega), List.getElem?_eq_none (by omega)]
  · apply List.ext_getElem?
    intro j
    by_cases hj : j < elements.length
    · have h1 : j + condensates_jac.length < result.length := by omega
      have h2 : j < elem_number_dens_old.length := by omega
      have hr : result[j + condensates_jac.length]? = some 0 := by
        rw [List.getElem?_eq_getElem h1, hzero _ (List.getElem_mem h1)]
      have := hev j 0 _ hr (List.getElem?_eq_getElem h2)
      simp only at this ⊢
      rw [this, hkeep, List.getElem?_eq_getElem h2]
    · simp only
      rw [List.getElem?_eq_none (by omega), List.getElem?_eq_none (by omega)]
  · intro i a n ha hn
    have h3 : i < activity_corr_old.length := lt_length_of_getElem? ha
    have h1 : i < d1.length := by omega
    have hdi : d1[i]? = some 0 := by
      rw [List.getElem?_eq_getElem h1, hd0 i d1[i] (List.getElem?_eq_getElem h1)]
    have := (hsv i 0 n a hdi hn ha).2
    rw [hclamp] at this
    exact this

/-- Witness of the amended C5 over the real numbers: one condensate and one
element; the new activity correction is `2 * exp (0 - ln 2 - ln 3 - 0)`. -/
theorem correctValues_zero_step_witness :
    Real.exp 0 = 1 ∧ (∀ x : ℝ, x * 1 = x) ∧ ¬ ((10 : ℝ) < 0) ∧ ¬ ((0 : ℝ) < -10) ∧
    InRange ([0, 0] : List ℝ) [⟨[1], 0⟩] [0] [] [2] [0] [3] [0] [⟨0, 5⟩] [5] [0] ∧
    (∀ x ∈ ([0, 0] : List ℝ), x = 0) ∧
    ∃ out, correctValues Real.exp Real.log ([0, 0] : List ℝ) [⟨[1], 0⟩] [0] []
        [2] [0] [3] [0] [⟨0, 5⟩] [5] [0] 0 10 = some out ∧
      out.cond_number_dens_new = [3] ∧
      out.elem_number_dens_new = [5] ∧
      out.activity_corr_new.length = ([2] : List ℝ).length ∧
      ∀ (i : Nat) a n, ([2] : List ℝ)[i]? = some a → ([3] : List ℝ)[i]? = some n →
        out.activity_corr_new[i]? = some (a * Real.exp (0 - Real.log a - Real.log n - 0)) :=
  have he : Real.exp 0 = 1 := Real.exp_zero
  have hm : ∀ x : ℝ, x * 1 = x := mul_one
  have h1 : ¬ ((10 : ℝ) < 0) := by norm_num
  have h2 : ¬ ((0 : ℝ) < -10) := by norm_num
  have hr : InRange ([0, 0] : List ℝ) [⟨[1], 0⟩] [0] [] [2] [0] [3] [0] [⟨0, 5⟩] [5]
      [0] := by
    simp [InRange]
  have hz : ∀ x ∈ ([0, 0] : List ℝ), x = 0 := by simp
  ⟨he, hm, h1, h2, hr, hz,
    correctValues_zero_step Real.exp Real.log _ _ _ _ _ _ _ _ _ _ 0 10 he hm h1 h2 hr hz⟩

theorem logb_ten_tau : Real.logb 10 (1e-25 : ℝ) = -25 := by
  have h : (1e-25 : ℝ) = (10 : ℝ) ^ (-25 : ℤ) := by norm_num
  rw [h, Real.logb, Real.log_zpow]
  have hlog : Real.log 10 ≠ 0 := by
    have : (0 : ℝ) < Real.log 10 := Real.log_pos (by norm_num)
    exact ne_of_gt this
  field_simp

theorem log_tau_ne : Real.log (1e-25 : ℝ) ≠ -25 := by
  have h : (1e-25 : ℝ) = (10 : ℝ) ^ (-25 : ℤ) := by norm_num
  rw [h, Real.log_zpow]
  have h1 : (1 : ℝ) < Real.log 10 := by
    rw [Real.lt_log_iff_exp_lt (by norm_num)]
    have := Real.exp_one_lt_d9
    linarith
  intro hcon
  push_cast at hcon
  linarith

/-- C6 on the code: in the first pass of the loop of `calculate` with one selected
condensate, no element and the raw step `0`, the new activity correction is
`1 * exp (log10 tau - ln 1 - ln tau - 0) = exp (-25 - ln 1e-25)`; the value of the
claim, `1 * exp (ln tau - ln 1 - ln tau - 0)`, is different. -/
theorem calculate_activity_log10 :
    (calculateUpTo (stubCollaborators [0] []) Real.exp Real.log (Real.logb 10)
        1000 1 [] [⟨[], 0⟩] ([] : List Unit) 1).map (fun s => s.activity_corr_new) =
      some [1 * Real.exp (Real.logb 10 1e-25 - Real.log 1 - Real.log 1e-25 - 0)] ∧
    Real.logb 10 (1e-25 : ℝ) = -25 ∧
    (1 : ℝ) * Real.exp (Real.logb 10 1e-25 - Real.log 1 - Real.log 1e-25 - 0) ≠
      1 * Real.exp (Real.log 1e-25 - Real.log 1 - Real.log 1e-25 - 0) := by
  refine ⟨?_, logb_ten_tau, ?_⟩
  · simp [calculateUpTo, stubCollaborators, initState, forLoop, iteration, derefAll,
      fillJac, pushBackLoop, readAt, writeAt, correctValues, rawSteps, jacBody, condBody,
      activityBody]
    norm_num
  · rw [logb_ten_tau]
    simp only [Real.log_one, sub_zero, sub_self, Real.exp_zero, mul_one, one_mul, ne_eq,
      Real.exp_eq_one_iff]
    intro h
    exact log_tau_ne (by linarith)

theorem stoichSum_eq_sum (result : List ℝ) (c : Condensate ℝ) (elements : List (Element ℝ))
    (nb : Nat) : ∀ m : Nat, stoichSum result c elements nb m =
      ∑ j in Finset.range m, stoichTerm result c elements nb j
  | 0 => by simp [stoichSum]
  | m + 1 => by
    rw [stoichSum, stoichSum_eq_sum result c elements nb m, Finset.sum_range_succ]

/-- C7. Analytic step of a removed condensate: for an index `r` that occurs exactly
once in `condensates_rem` and not in `condensates_jac`, with old activity
correction `a`, old number density `n` (in particular for `a > 0` and `n > 0`),
log-activity `c.log_activity` and reference constant `ln_tau`, the step
`delta_n[r]` before clamping is
`(Σ_j stoichiometric_vector[elements[j].index] * result[j + |condensates_jac|]) / a
+ log_activity / a + ln_tau - ln a - ln n + 1`. -/
theorem rawSteps_removed (result : List ℝ) (condensates : List (Condensate ℝ))
    (condensates_jac condensates_rem : List Nat)
    (activity_corr_old activity_corr_new cond_number_dens_old cond_number_dens_new : List ℝ)
    (elements : List (Element ℝ)) (elem_number_dens_old elem_number_dens_new : List ℝ)
    (ln_tau : ℝ) (r : Nat) (c : Condensate ℝ) (a n : ℝ)
    (hrange : InRange result condensates condensates_jac condensates_rem activity_corr_old
      activity_corr_new cond_number_dens_old cond_number_dens_new elements
      elem_number_dens_old elem_number_dens_new)
    (honce : condensates_rem.count r = 1) (hjac : r ∉ condensates_jac)
    (hc : condensates[r]? = some c)
    (ha : activity_corr_old[r]? = some a) (hn : cond_number_dens_old[r]? = some n) :
    ∃ delta, rawSteps Real.log result condensates condensates_jac condensates_rem
        activity_corr_old cond_number_dens_old elements ln_tau = some delta ∧
      delta[r]? = some
        ((∑ j in Finset.range elements.length,
            stoichTerm result c elements condensates_jac.length j) / a
          + c.log_activity / a + ln_tau - Real.log a - Real.log n + 1) := by
  obtain ⟨delta, hdelta, _, _, _, hrem, _⟩ := rawSteps_spec Real.log result condensates
    condensates_jac condensates_rem activity_corr_old activity_corr_new cond_number_dens_old
    cond_number_dens_new elements elem_number_dens_old elem_number_dens_new ln_tau hrange
  refine ⟨delta, hdelta, ?_⟩
  rw [hrem r c a n honce hjac hc ha hn, removedStep, stoichSum_eq_sum]
  congr 1
  ring

/-- Witness of C7: condensate 1 is removed, condensate 0 is solved; two elements
with stoichiometric coefficients 2 and 3 and solved corrections 5 and 7, activity
correction 4: the step is `(2 * 5 + 3 * 7) / 4 + 8 / 4 + ln_tau - ln 4 - ln 6 + 1`. -/
theorem rawSteps_removed_witness :
    ∃ delta, rawSteps Real.log ([9, 5, 7] : List ℝ) [⟨[0, 0], 0⟩, ⟨[2, 3], 8⟩] [0] [1]
        [1, 4] [1, 6] [⟨0, 1⟩, ⟨1, 1⟩] (-25) = some delta ∧
      delta[1]? = some ((2 * 5 + 3 * 7) / 4 + 8 / 4 + -25 - Real.log 4 - Real.log 6 + 1) := by
  have hr : InRange ([9, 5, 7] : List ℝ) [⟨[0, 0], 0⟩, ⟨[2, 3], 8⟩] [0] [1]
      [1, 4] [0, 0] [1, 6] [0, 0] [⟨0, 1⟩, ⟨1, 1⟩] [1, 1] [0, 0] := by
    simp [InRange]
  obtain ⟨delta, hdelta, hv⟩ := rawSteps_removed ([9, 5, 7] : List ℝ)
    [⟨[0, 0], 0⟩, ⟨[2, 3], 8⟩] [0] [1] [1, 4] [0, 0] [1, 6] [0, 0] [⟨0, 1⟩, ⟨1, 1⟩] [1, 1]
    [0, 0] (-25) 1 ⟨[2, 3], 8⟩ 4 6 hr (by simp) (by simp) (by simp) (by simp) (by simp)
  refine ⟨delta, hdelta, ?_⟩
  rw [hv]
  simp [Finset.sum_range_succ, stoichTerm]

/-- C8. Initial iteration state of `calculate`: for the lists `condensates_act`
and `elements_cond` returned by the selector (element pointers valid), before the
first pass of the loop `cond_densities_old` consists of `|condensates_act|` entries
`tau = 1e-25`, `activity_corr_old` of `|condensates_act|` entries `1.0`, and
`elem_densities_old` has length `|elements_cond|` with entry `i` the current
`number_density` of `elements_cond[i]`. -/
theorem calculate_initial_state {μ mat : Type} (K : Collaborators ℝ μ mat)
    (temperature total_element_density : ℝ)
    (elements : List (Element ℝ)) (condensates : List (Condensate ℝ)) (molecules : List μ)
    (hvalid : ∀ p ∈ (K.selectActiveCondensates condensates elements).2, p < elements.length) :
    ∃ s, calculateUpTo K Real.exp Real.log (Real.logb 10) temperature
        total_element_density elements condensates molecules 0 = some s ∧
      s.cond_densities_old =
        List.replicate (K.selectActiveCondensates condensates elements).1.length 1e-25 ∧
      s.activity_corr_old =
        List.replicate (K.selectActiveCondensates condensates elements).1.length 1 ∧
      s.elem_densities_old.length = (K.selectActiveCondensates condensates elements).2.length ∧
      ∀ (i p : Nat) e, (K.selectActiveCondensates condensates elements).2[i]? = some p →
        elements[p]? = some e → s.elem_densities_old[i]? = some e.number_density := by
  obtain ⟨s0, hs0, _, _, _, _, h5, h6, _, _, _, h10, h11⟩ := initState_spec elements
    condensates molecules (K.selectActiveCondensates condensates elements).1
    (K.selectActiveCondensates condensates elements).2 1e-25 hvalid
  refine ⟨s0, ?_, h5, h6, h10, h11⟩
  simp only [calculateUpTo, hs0, Option.bind_eq_bind, Option.some_bind, forLoop]

/-- Witness of C8: two selected condensates and two selected elements, the second
element pointer before the first. -/
theorem calculate_initial_state_witness :
    (∀ p ∈ ((stubCollaborators [0, 0] [1, 0] : Collaborators ℝ Unit Unit).selectActiveCondensates
        [⟨[1, 1], 0⟩] [⟨0, 3⟩, ⟨1, 4⟩]).2, p < ([⟨0, 3⟩, ⟨1, 4⟩] : List (Element ℝ)).length) ∧
    ∃ s, calculateUpTo (stubCollaborators [0, 0] [1, 0]) Real.exp Real.log (Real.logb 10)
        1000 1 [⟨0, 3⟩, ⟨1, 4⟩] [⟨[1, 1], 0⟩] ([] : List Unit) 0 = some s ∧
      s.cond_densities_old = [1e-25, 1e-25] ∧ s.activity_corr_old = [1, 1] ∧
      s.elem_densities_old = [4, 3] := by
  have hv : ∀ p ∈ ((stubCollaborators [0, 0] [1, 0] :
      Collaborators ℝ Unit Unit).selectActiveCondensates [⟨[1, 1], 0⟩] [⟨0, 3⟩, ⟨1, 4⟩]).2,
      p < ([⟨0, 3⟩, ⟨1, 4⟩] : List (Element ℝ)).length := by
    simp [stubCollaborators]
  obtain ⟨s, hs, h1, h2, h3, h4⟩ := calculate_initial_state (stubCollaborators [0, 0] [1, 0])
    1000 1 [⟨0, 3⟩, ⟨1, 4⟩] [⟨[1, 1], 0⟩] ([] : List Unit) hv
  refine ⟨hv, s, hs, by simpa [stubCollaborators] using h1,
    by simpa [stubCollaborators] using h2, ?_⟩
  apply List.ext_getElem?
  intro i
  match i with
  | 0 => simpa using h4 0 1 ⟨1, 4⟩ (by simp [stubCollaborators]) (by simp)
  | 1 => simpa using h4 1 0 ⟨0, 3⟩ (by simp [stubCollaborators]) (by simp)
  | i + 2 =>
    have hl : s.elem_densities_old.length = 2 := by simpa [stubCollaborators] using h3
    rw [List.getElem?_eq_none (by omega)]
    simp

/-- C12. Frame of `calculate` on element records (the recomputations `calcActivity`
and `calcNumberDensity` of the embedding return the recomputed condensate or
molecule and write no element record, which is the assumption of the claim):
after any number of passes the catalogue has its length, every element outside the
selector's `elements_cond` is the initial record, an element in `elements_cond`
keeps its `index` (only `number_density` is written), and with an empty
`elements_cond` the whole catalogue is unchanged. -/
theorem calculate_frame {μ mat : Type} (K : Collaborators ℝ μ mat)
    (temperature total_element_density : ℝ)
    (elements : List (Element ℝ)) (condensates : List (Condensate ℝ)) (molecules : List μ)
    (hdim : Dimensioned K) (hvalid : ValidSelection K elements condensates) (bound : Nat) :
    ∃ s, calculateUpTo K Real.exp Real.log (Real.logb 10) temperature
        total_element_density elements condensates molecules bound = some s ∧
      s.elements.length = elements.length ∧
      (∀ p : Nat, p ∉ (K.selectActiveCondensates condensates elements).2 →
        s.elements[p]? = elements[p]?) ∧
      s.elements.map Element.index = elements.map Element.index ∧
      ((K.selectActiveCondensates condensates elements).2 = [] → s.elements = elements) := by
  obtain ⟨s, hs, hsh, _, hout, hidx, _⟩ := calculateUpTo_elements K (Real.logb 10)
    temperature total_element_density elements condensates molecules hdim hvalid bound
  refine ⟨s, hs, hsh.1, hout, ?_, ?_⟩
  · apply List.ext_getElem?
    intro p
    rw [List.getElem?_map, List.getElem?_map]
    exact hidx p
  · intro hempty
    apply List.ext_getElem?
    intro p
    exact hout p (by rw [hempty]; simp)

/-- Witness of C12: three elements of which the second is selected; after three
passes the first and the third record are the initial ones. -/
theorem calculate_frame_witness :
    Dimensioned (stubCollaborators [0] [1] : Collaborators ℝ Unit Unit) ∧
    ValidSelection (stubCollaborators [0] [1] : Collaborators ℝ Unit Unit)
      [⟨0, 3⟩, ⟨1, 4⟩, ⟨2, 9⟩] [⟨[1, 1, 1], 0⟩] ∧
    ∃ s, calculateUpTo (stubCollaborators [0] [1]) Real.exp Real.log (Real.logb 10) 1000 1
        [⟨0, 3⟩, ⟨1, 4⟩, ⟨2, 9⟩] [⟨[1, 1, 1], 0⟩] ([] : List Unit) 3 = some s ∧
      s.elements.length = 3 ∧ s.elements[0]? = some ⟨0, 3⟩ ∧ s.elements[2]? = some ⟨2, 9⟩ ∧
      s.elements.map Element.index = [0, 1, 2] := by
  have hd := stubCollaborators_dimensioned [0] [1]
  have hv : ValidSelection (stubCollaborators [0] [1] : Collaborators ℝ Unit Unit)
      [⟨0, 3⟩, ⟨1, 4⟩, ⟨2, 9⟩] [⟨[1, 1, 1], 0⟩] := by
    simp [ValidSelection, stubCollaborators]
  obtain ⟨s, hs, hlen, hout, hidx, _⟩ := calculate_frame (stubCollaborators [0] [1]) 1000 1
    [⟨0, 3⟩, ⟨1, 4⟩, ⟨2, 9⟩] [⟨[1, 1, 1], 0⟩] ([] : List Unit) hd hv 3
  refine ⟨hd, hv, s, hs, hlen, ?_, ?_, ?_⟩
  · simpa [stubCollaborators] using hout 0
  · simpa [stubCollaborators] using hout 2
  · simpa using hidx

/-- C13. Old/new consistency invariant of the loop of `calculate`, with distinct
pointers in `elements_cond` (the recomputations of the embedding write no element
record): before every pass, record `elements_cond[i]` has
`number_density = elem_densities_old[i]`, so the element records handed to the
assembler carry `elem_densities_old`; the pass assembles from these records and
the old vectors `activity_corr_old`, `cond_densities_old` and promotes the outputs
of `correctValues` to the old vectors of the next pass. -/
theorem calculate_old_new_consistency {μ mat : Type} (K : Collaborators ℝ μ mat)
    (temperature total_element_density : ℝ)
    (elements : List (Element ℝ)) (condensates : List (Condensate ℝ)) (molecules : List μ)
    (hdim : Dimensioned K) (hvalid : ValidSelection K elements condensates)
    (hdistinct : (K.selectActiveCondensates condensates elements).2.Nodup) (bound : Nat) :
    ∃ s conds elems out s',
      calculateUpTo K Real.exp Real.log (Real.logb 10) temperature total_element_density
        elements condensates molecules bound = some s ∧
      (∀ (i p : Nat) e, (K.selectActiveCondensates condensates elements).2[i]? = some p →
        s.elements[p]? = some e → s.elem_densities_old[i]? = some e.number_density) ∧
      derefAll s.condensates (K.selectActiveCondensates condensates elements).1 = some conds ∧
      derefAll s.elements (K.selectActiveCondensates condensates elements).2 = some elems ∧
      elems.map Element.number_density = s.elem_densities_old ∧
      correctValues Real.exp Real.log
        (K.solveSystem
          (K.assembleJacobian conds s.activity_corr_old s.cond_densities_old
            (fillJac (K.selectActiveCondensates condensates elements).1.length) [] elems
            s.molecules)
          (K.assembleRightHandSide conds
            (fillJac (K.selectActiveCondensates condensates elements).1.length) []
            s.activity_corr_old s.cond_densities_old elems s.molecules
            total_element_density (Real.logb 10 1e-25)))
        conds (fillJac (K.selectActiveCondensates condensates elements).1.length) []
        s.activity_corr_old s.activity_corr_new s.cond_densities_old s.cond_densities_new
        elems s.elem_densities_old s.elem_densities_new (Real.logb 10 1e-25) 10.0 = some out ∧
      calculateUpTo K Real.exp Real.log (Real.logb 10) temperature total_element_density
        elements condensates molecules (bound + 1) = some s' ∧
      s'.elem_densities_old = out.elem_number_dens_new ∧
      s'.cond_densities_old = out.cond_number_dens_new ∧
      s'.activity_corr_old = out.activity_corr_new := by
  obtain ⟨s, hs, hsh, _, _, _, hnd⟩ := calculateUpTo_elements K (Real.logb 10)
    temperature total_element_density elements condensates molecules hdim hvalid bound
  obtain ⟨s', conds, elems, out, hconds, helems, hcorr, _, hs', _, _, e1, _, e3, _, e5, _⟩ :=
    iteration_spec K temperature total_element_density (Real.logb 10 1e-25)
      (K.selectActiveCondensates condensates elements).1
      (K.selectActiveCondensates condensates elements).2
      elements.length condensates.length bound s hdim hvalid.1 hvalid.2 hsh
  obtain ⟨xs, hxs, hxl, hxv⟩ := derefAll_spec s.elements
    (K.selectActiveCondensates condensates elements).2
    (fun p hp => by rw [hsh.1]; exact hvalid.2 p hp)
  rw [helems] at hxs
  simp only [Option.some.injEq] at hxs
  subst hxs
  refine ⟨s, conds, elems, out, s', hs, ?_, hconds, helems, ?_, hcorr, ?_, e5, e1, e3⟩
  · intro i p e hip hpe
    have := hnd hdistinct i p hip
    rw [hpe] at this
    simpa using this.symm
  · apply List.ext_getElem?
    intro i
    rw [List.getElem?_map]
    by_cases hi : i < (K.selectActiveCondensates condensates elements).2.length
    · have hip := List.getElem?_eq_getElem hi
      rw [hxv i _ hip]
      exact hnd hdistinct i _ hip
    · rw [List.getElem?_eq_none (by omega), List.getElem?_eq_none (by have := hsh.2.2.1; omega)]
      rfl
  · rw [calculateUpTo_succ, hs, Option.some_bind, hs']

/-- Witness of C13: two selected elements, the pointer to the second record first;
after two passes the records handed to the assembler carry `elem_densities_old`. -/
theorem calculate_old_new_consistency_witness :
    Dimensioned (stubCollaborators [0] [1, 0] : Collaborators ℝ Unit Unit) ∧
    ValidSelection (stubCollaborators [0] [1, 0] : Collaborators ℝ Unit Unit)
      [⟨0, 3⟩, ⟨1, 4⟩] [⟨[1, 1], 0⟩] ∧
    ([1, 0] : List Nat).Nodup ∧
    ∃ s elems, calculateUpTo (stubCollaborators [0] [1, 0]) Real.exp Real.log (Real.logb 10)
        1000 1 [⟨0, 3⟩, ⟨1, 4⟩] [⟨[1, 1], 0⟩] ([] : List Unit) 2 = some s ∧
      derefAll s.elements [1, 0] = some elems ∧
      elems.map Element.number_density = s.elem_densities_old := by
  have hd := stubCollaborators_dimensioned [0] [1, 0]
  have hv : ValidSelection (stubCollaborators [0] [1, 0] : Collaborators ℝ Unit Unit)
      [⟨0, 3⟩, ⟨1, 4⟩] [⟨[1, 1], 0⟩] := by
    simp [ValidSelection, stubCollaborators]
  have hn : ([1, 0] : List Nat).Nodup := by simp
  obtain ⟨s, _, elems, _, _, hs, _, _, helems, hmap, _⟩ := calculate_old_new_consistency
    (stubCollaborators [0] [1, 0]) 1000 1 [⟨0, 3⟩, ⟨1, 4⟩] [⟨[1, 1], 0⟩] ([] : List Unit)
    hd hv hn 2
  exact ⟨hd, hv, hn, s, elems, hs, helems, hmap⟩

/-- C14 as stated fails: with one selected condensate and one selected element the
state after one pass of the loop body exists, but the process exits in the state
after 1000 passes, not after one. -/
theorem calculate_exit_point_counterexample :
    ∃ s1 s, calculateUpTo (stubCollaborators [0] [0]) Real.exp Real.log (Real.logb 10)
        1000 1 [⟨0, 3⟩] [⟨[1], 0⟩] ([] : List Unit) 1 = some s1 ∧ s1.iterations = 1 ∧
      calculate (stubCollaborators [0] [0]) Real.exp Real.log (Real.logb 10) 1000 1 1
        [⟨0, 3⟩] [⟨[1], 0⟩] ([] : List Unit) = some (Outcome.exited 0 s) ∧
      s.iterations = 1000 ∧ s.iterations ≠ 1 := by
  have hd : Dimensioned (stubCollaborators [0] [0] : Collaborators ℝ Unit Unit) :=
    stubCollaborators_dimensioned [0] [0]
  have hv : ValidSelection (stubCollaborators [0] [0] : Collaborators ℝ Unit Unit)
      [⟨0, 3⟩] [⟨[1], 0⟩] := by
    simp [ValidSelection, stubCollaborators]
  obtain ⟨s1, hs1, _, hit1⟩ := calculateUpTo_spec (stubCollaborators [0] [0]) (Real.logb 10)
    1000 1 [⟨0, 3⟩] [⟨[1], 0⟩] ([] : List Unit) hd hv 1
  obtain ⟨s, hs, _, hit⟩ := calculate_spec (stubCollaborators [0] [0]) (Real.logb 10) 1000 1 1
    [⟨0, 3⟩] [⟨[1], 0⟩] ([] : List Unit) hd hv
  exact ⟨s1, s, hs1, hit1, hs, hit, by omega⟩

/-- C14, amended. The unconditional `exit(0)` stands behind the loop: the process
exits after exactly 1000 passes of the loop body; the state `s1` after the first
assembly/solve/correct cycle is followed by the 999 passes `it = 1, ..., 999`
before the exit. -/
theorem calculate_exit_point {μ mat : Type} (K : Collaborators ℝ μ mat)
    (temperature density total_element_density : ℝ)
    (elements : List (Element ℝ)) (condensates : List (Condensate ℝ)) (molecules : List μ)
    (hdim : Dimensioned K) (hvalid : ValidSelection K elements condensates) :
    ∃ s1 s, calculateUpTo K Real.exp Real.log (Real.logb 10) temperature
        total_element_density elements condensates molecules 1 = some s1 ∧
      s1.iterations = 1 ∧
      forLoop (iteration K Real.exp Real.log temperature total_element_density
          (Real.logb 10 1e-25) (K.selectActiveCondensates condensates elements).1
          (K.selectActiveCondensates condensates elements).2
          (fillJac (K.selectActiveCondensates condensates elements).1.length) [])
        1 999 s1 = some s ∧
      calculate K Real.exp Real.log (Real.logb 10) temperature density
        total_element_density elements condensates molecules = some (Outcome.exited 0 s) ∧
      s.iterations = 1000 := by
  obtain ⟨s1, hs1, _, hit1⟩ := calculateUpTo_spec K (Real.logb 10) temperature
    total_element_density elements condensates molecules hdim hvalid 1
  obtain ⟨s, hs, hs1000, hit⟩ := calculate_spec K (Real.logb 10) temperature density
    total_element_density elements condensates molecules hdim hvalid
  refine ⟨s1, s, hs1, hit1, ?_, hs, hit⟩
  have hadd := calculateUpTo_add K (Real.logb 10) temperature total_element_density
    elements condensates molecules 1 999
  rw [hs1, Option.some_bind] at hadd
  have h2 : calculateUpTo K Real.exp Real.log (Real.logb 10) temperature
      total_element_density elements condensates molecules (1 + 999) = some s := hs1000
  rw [hadd] at h2
  exact h2

/-- Witness of the amended C14: an empty selection. -/
theorem calculate_exit_point_witness :
    Dimensioned (stubCollaborators [] [] : Collaborators ℝ Unit Unit) ∧
    ValidSelection (stubCollaborators [] [] : Collaborators ℝ Unit Unit) [⟨0, 3⟩] [⟨[1], 0⟩] ∧
    ∃ s1 s, calculateUpTo (stubCollaborators [] []) Real.exp Real.log (Real.logb 10) 1000 1
        [⟨0, 3⟩] [⟨[1], 0⟩] ([] : List Unit) 1 = some s1 ∧
      s1.iterations = 1 ∧
      forLoop (iteration (stubCollaborators [] []) Real.exp Real.log 1000 1
          (Real.logb 10 1e-25)
          ((stubCollaborators [] [] : Collaborators ℝ Unit Unit).selectActiveCondensates
            [⟨[1], 0⟩] [⟨0, 3⟩]).1
          ((stubCollaborators [] [] : Collaborators ℝ Unit Unit).selectActiveCondensates
            [⟨[1], 0⟩] [⟨0, 3⟩]).2
          (fillJac ((stubCollaborators [] [] : Collaborators ℝ Unit Unit).selectActiveCondensates
            [⟨[1], 0⟩] [⟨0, 3⟩]).1.length) [])
        1 999 s1 = some s ∧
      calculate (stubCollaborators [] []) Real.exp Real.log (Real.logb 10) 1000 1 1
        [⟨0, 3⟩] [⟨[1], 0⟩] ([] : List Unit) = some (Outcome.exited 0 s) ∧
      s.iterations = 1000 :=
  have hd := stubCollaborators_dimensioned [] []
  have hv : ValidSelection (stubCollaborators [] [] : Collaborators ℝ Unit Unit)
      [⟨0, 3⟩] [⟨[1], 0⟩] := by
    simp [ValidSelection, stubCollaborators]
  ⟨hd, hv, calculate_exit_point _ 1000 1 1 _ _ _ hd hv⟩

/-- C16. Partition used by `calculate`: `condensates_jac` is the identity list
`[0, ..., |condensates_act| - 1]` and `condensates_rem` is empty in every pass
(pass `bound + 1` is the loop body applied with these lists to the state after
`bound` passes); the loop over the removed condensates has no pass, the raw step
of condensate `i` is `result[i]`, and the step of element `j` is
`result[|condensates_act| + j]`. -/
theorem calculate_partition {μ mat : Type} (K : Collaborators ℝ μ mat)
    (temperature total_element_density : ℝ)
    (elements : List (Element ℝ)) (condensates : List (Condensate ℝ)) (molecules : List μ)
    (hdim : Dimensioned K) (hvalid : ValidSelection K elements condensates) (bound : Nat) :
    fillJac (K.selectActiveCondensates condensates elements).1.length =
      List.range (K.selectActiveCondensates condensates elements).1.length ∧
    ∃ s conds elems result delta s',
      calculateUpTo K Real.exp Real.log (Real.logb 10) temperature total_element_density
        elements condensates molecules bound = some s ∧
      derefAll s.condensates (K.selectActiveCondensates condensates elements).1 = some conds ∧
      derefAll s.elements (K.selectActiveCondensates condensates elements).2 = some elems ∧
      result = K.solveSystem
        (K.assembleJacobian conds s.activity_corr_old s.cond_densities_old
          (List.range (K.selectActiveCondensates condensates elements).1.length) [] elems
          s.molecules)
        (K.assembleRightHandSide conds
          (List.range (K.selectActiveCondensates condensates elements).1.length) []
          s.activity_corr_old s.cond_densities_old elems s.molecules
          total_element_density (Real.logb 10 1e-25)) ∧
      iteration K Real.exp Real.log temperature total_element_density (Real.logb 10 1e-25)
        (K.selectActiveCondensates condensates elements).1
        (K.selectActiveCondensates condensates elements).2
        (List.range (K.selectActiveCondensates condensates elements).1.length) []
        bound s = some s' ∧
      calculateUpTo K Real.exp Real.log (Real.logb 10) temperature total_element_density
        elements condensates molecules (bound + 1) = some s' ∧
      rawSteps Real.log result conds
        (List.range (K.selectActiveCondensates condensates elements).1.length) []
        s.activity_corr_old s.cond_densities_old elems (Real.logb 10 1e-25) = some delta ∧
      forLoop (jacBody result
          (List.range (K.selectActiveCondensates condensates elements).1.length)) 0
        (K.selectActiveCondensates condensates elements).1.length
        (List.replicate conds.length 0) = some delta ∧
      (∀ i : Nat, i < (K.selectActiveCondensates condensates elements).1.length →
        ∃ r n, result[i]? = some r ∧ delta[i]? = some r ∧
          s.cond_densities_old[i]? = some n ∧
          s'.cond_densities_new[i]? = some (n * Real.exp (clampStep 10 r))) ∧
      (∀ j : Nat, j < (K.selectActiveCondensates condensates elements).2.length →
        ∃ r e, result[(K.selectActiveCondensates condensates elements).1.length + j]? = some r ∧
          s.elem_densities_old[j]? = some e ∧
          s'.elem_densities_new[j]? = some (e * Real.exp (clampStep 10 r))) := by
  refine ⟨fillJac_eq _, ?_⟩
  obtain ⟨s, hs, hsh, _⟩ := calculateUpTo_spec K (Real.logb 10) temperature
    total_element_density elements condensates molecules hdim hvalid bound
  obtain ⟨s', conds, elems, out, hconds, helems, hcorr, hrange, hs', _, _, _, e2, _, _, _, e6⟩ :=
    iteration_spec K temperature total_element_density (Real.logb 10 1e-25)
      (K.selectActiveCondensates condensates elements).1
      (K.selectActiveCondensates condensates elements).2
      elements.length condensates.length bound s hdim hvalid.1 hvalid.2 hsh
  have hsucc : calculateUpTo K Real.exp Real.log (Real.logb 10) temperature
      total_element_density elements condensates molecules (bound + 1) = some s' := by
    rw [calculateUpTo_succ, hs, Option.some_bind, hs']
  rw [fillJac_eq] at hcorr hrange hs'
  obtain ⟨delta, out2, hdelta, hlen, hout2, _, _, _, hcv, hev⟩ := correctValues_spec _ _ _ _ _
    _ _ _ _ _ _ (Real.logb 10 1e-25) 10.0 hrange
  rw [hcorr] at hout2
  simp only [Option.some.injEq] at hout2
  subst hout2
  obtain ⟨delta2, hdelta2, _, hjacv, _⟩ := rawSteps_spec Real.log _ _ _ _ _ _ _ _ _ _ _
    (Real.logb 10 1e-25) hrange
  rw [hdelta] at hdelta2
  simp only [Option.some.injEq] at hdelta2
  subst hdelta2
  have hr0 := hrange
  obtain ⟨hres, _, _, haco, _, hcdo, _, hedo, _, _⟩ := hr0
  rw [List.length_range] at hres
  have h10 : (10.0 : ℝ) = 10 := by norm_num
  have hsh0 := hsh
  obtain ⟨_, _, hedo', _, hcdo', _, haco', _⟩ := hsh0
  have hloop := hdelta
  rw [rawSteps_nil, List.length_range] at hloop
  refine ⟨s, conds, elems, _, delta, s', hs, hconds, helems, rfl, hs', hsucc, hdelta, hloop,
    ?_, ?_⟩
  · intro i hi
    have h1 : i < delta.length := by omega
    have h2 : i < s.cond_densities_old.length := by omega
    have h3 : i < s.activity_corr_old.length := by omega
    have hd := hjacv (List.nodup_range _) i i (List.getElem?_range hi) (by simp)
    have hri := lt_length_of_getElem? (hd.symm.trans (List.getElem?_eq_getElem h1))
    rw [List.getElem?_eq_getElem hri] at hd
    obtain ⟨hc, _⟩ := hcv i _ _ _ hd (List.getElem?_eq_getElem h2)
      (List.getElem?_eq_getElem h3)
    rw [h10] at hc
    exact ⟨_, _, List.getElem?_eq_getElem hri, hd, List.getElem?_eq_getElem h2,
      by rw [e2]; exact hc⟩
  · intro j hj
    have helen : elems.length = (K.selectActiveCondensates condensates elements).2.length := by
      omega
    have h1 : (K.selectActiveCondensates condensates elements).1.length + j <
        (K.solveSystem
          (K.assembleJacobian conds s.activity_corr_old s.cond_densities_old
            (List.range (K.selectActiveCondensates condensates elements).1.length) [] elems
            s.molecules)
          (K.assembleRightHandSide conds
            (List.range (K.selectActiveCondensates condensates elements).1.length) []
            s.activity_corr_old s.cond_densities_old elems s.molecules
            total_element_density (Real.logb 10 1e-25))).length := by omega
    have h2 : j < s.elem_densities_old.length := by omega
    have hv := hev j _ _ (by
      rw [List.length_range, Nat.add_comm]
      exact List.getElem?_eq_getElem h1) (List.getElem?_eq_getElem h2)
    rw [h10] at hv
    exact ⟨_, _, List.getElem?_eq_getElem h1, List.getElem?_eq_getElem h2, by rw [e6]; exact hv⟩

/-- Witness of C16: one selected condensate and one selected element; the first
pass uses `condensates_jac = [0]` and updates the condensate from its own step. -/
theorem calculate_partition_witness :
    Dimensioned (stubCollaborators [0] [0] : Collaborators ℝ Unit Unit) ∧
    ValidSelection (stubCollaborators [0] [0] : Collaborators ℝ Unit Unit)
      [⟨0, 3⟩] [⟨[1], 0⟩] ∧
    fillJac 1 = [0] ∧
    ∃ s s', calculateUpTo (stubCollaborators [0] [0]) Real.exp Real.log (Real.logb 10)
        1000 1 [⟨0, 3⟩] [⟨[1], 0⟩] ([] : List Unit) 0 = some s ∧
      calculateUpTo (stubCollaborators [0] [0]) Real.exp Real.log (Real.logb 10)
        1000 1 [⟨0, 3⟩] [⟨[1], 0⟩] ([] : List Unit) 1 = some s' ∧
      (∃ r n, s.cond_densities_old[0]? = some n ∧
        s'.cond_densities_new[0]? = some (n * Real.exp (clampStep 10 r))) ∧
      (∃ r e, s.elem_densities_old[0]? = some e ∧
        s'.elem_densities_new[0]? = some (e * Real.exp (clampStep 10 r))) := by
  have hd := stubCollaborators_dimensioned [0] [0]
  have hv : ValidSelection (stubCollaborators [0] [0] : Collaborators ℝ Unit Unit)
      [⟨0, 3⟩] [⟨[1], 0⟩] := by
    simp [ValidSelection, stubCollaborators]
  obtain ⟨hjac, s, _, _, _, _, s', hs, _, _, _, _, hs', _, _, hc, he⟩ := calculate_partition
    (stubCollaborators [0] [0]) 1000 1 [⟨0, 3⟩] [⟨[1], 0⟩] ([] : List Unit) hd hv 0
  obtain ⟨r, n, _, _, hn, hcn⟩ := hc 0 (by simp [stubCollaborators])
  obtain ⟨r', e, _, hev, hen⟩ := he 0 (by simp [stubCollaborators])
  exact ⟨hd, hv, by simpa [stubCollaborators] using hjac, s, s', hs, hs',
    ⟨r, n, hn, hcn⟩, ⟨r', e, hev, hen⟩⟩

/-- C17. Index safety of `correctValues`: under the index conditions `InRange`
every vector access of `correctValues` is in bounds (the call does not fail);
with a `result` shorter than `|condensates_jac| + |elements|` and a non-empty
element list some access is out of bounds (the call fails). -/
theorem correctValues_index_safety (result : List ℝ) (condensates : List (Condensate ℝ))
    (condensates_jac condensates_rem : List Nat)
    (activity_corr_old activity_corr_new cond_number_dens_old cond_number_dens_new : List ℝ)
    (elements : List (Element ℝ)) (elem_number_dens_old elem_number_dens_new : List ℝ)
    (ln_tau max_change : ℝ) :
    (InRange result condensates condensates_jac condensates_rem activity_corr_old
        activity_corr_new cond_number_dens_old cond_number_dens_new elements
        elem_number_dens_old elem_number_dens_new →
      ∃ out, correctValues Real.exp Real.log result condensates condensates_jac
        condensates_rem activity_corr_old activity_corr_new cond_number_dens_old
        cond_number_dens_new elements elem_number_dens_old elem_number_dens_new
        ln_tau max_change = some out) ∧
    (result.length < condensates_jac.length + elements.length → elements ≠ [] →
      correctValues Real.exp Real.log result condensates condensates_jac
        condensates_rem activity_corr_old activity_corr_new cond_number_dens_old
        cond_number_dens_new elements elem_number_dens_old elem_number_dens_new
        ln_tau max_change = none) := by
  constructor
  · intro hrange
    obtain ⟨_, out, _, _, hout, _⟩ := correctValues_spec result condensates condensates_jac
      condensates_rem activity_corr_old activity_corr_new cond_number_dens_old
      cond_number_dens_new elements elem_number_dens_old elem_number_dens_new ln_tau
      max_change hrange
    exact ⟨out, hout⟩
  · intro hshort hne
    have hpos : 0 < elements.length := List.length_pos.2 hne
    have hfail : ∀ t : List ℝ, elemBody Real.exp result elem_number_dens_old
        condensates_jac.length max_change (elements.length - 1) t = none := by
      intro t
      have : result[elements.length - 1 + condensates_jac.length]? = none :=
        List.getElem?_eq_none (by omega)
      simp [elemBody, readAt, this]
    have hloop : ∀ t : List ℝ, forLoop (elemBody Real.exp result elem_number_dens_old
        condensates_jac.length max_change) 0 elements.length t = none :=
      fun t => forLoop_none _ (elements.length - 1) hfail elements.length 0 t
        (Nat.zero_le _) (by omega)
    simp only [correctValues, Option.bind_eq_bind]
    cases rawSteps Real.log result condensates condensates_jac condensates_rem
        activity_corr_old cond_number_dens_old elements ln_tau with
    | none => rfl
    | some delta =>
      simp only [Option.some_bind]
      cases forLoop (condBody Real.exp Real.log activity_corr_old cond_number_dens_old
          ln_tau max_change) 0 condensates.length
          ⟨delta, cond_number_dens_new, activity_corr_new⟩ with
      | none => rfl
      | some s => simp [hloop]

/-- Witness of C17: in range with one Jacobian condensate, one removed condensate and
one element; the same call with the last entry of `result` missing fails. -/
theorem correctValues_index_safety_witness :
    InRange ([50, -70] : List ℝ) [⟨[1], 0⟩, ⟨[2], 0⟩] [0] [1] [1, 2] [0, 0] [3, 4] [0, 0]
      [⟨0, 5⟩] [5] [0] ∧
    (∃ out, correctValues Real.exp Real.log ([50, -70] : List ℝ) [⟨[1], 0⟩, ⟨[2], 0⟩] [0] [1]
      [1, 2] [0, 0] [3, 4] [0, 0] [⟨0, 5⟩] [5] [0] (-25) 10 = some out) ∧
    ([50] : List ℝ).length < ([0] : List Nat).length + ([⟨0, 5⟩] : List (Element ℝ)).length ∧
    ([⟨0, 5⟩] : List (Element ℝ)) ≠ [] ∧
    correctValues Real.exp Real.log ([50] : List ℝ) [⟨[1], 0⟩, ⟨[2], 0⟩] [0] [1]
      [1, 2] [0, 0] [3, 4] [0, 0] [⟨0, 5⟩] [5] [0] (-25) 10 = none :=
  have hr : InRange ([50, -70] : List ℝ) [⟨[1], 0⟩, ⟨[2], 0⟩] [0] [1] [1, 2] [0, 0] [3, 4]
      [0, 0] [⟨0, 5⟩] [5] [0] := by
    simp [InRange]
  have hs : ([50] : List ℝ).length <
      ([0] : List Nat).length + ([⟨0, 5⟩] : List (Element ℝ)).length := by
    simp
  have hne : ([⟨0, 5⟩] : List (Element ℝ)) ≠ [] := by simp
  ⟨hr, (correctValues_index_safety _ _ _ _ _ _ _ _ _ _ _ (-25) 10).1 hr, hs, hne,
    (correctValues_index_safety _ _ _ _ _ _ _ _ _ _ _ (-25) 10).2 hs hne⟩

end FastChem
